import Mathlib

/-!
# Function wrappers (`core/hle/function_wrappers.h`)

A shallow embedding of the `Wrap` templates that bridge the guest registers and
the HLE functions.

* a register holds a `u32`, a `Fin 4294967296`; the register file is a function
  from register index to `u32`;
* a wrapped function (a handler) is a function from the list of its argument
  values to the value it returns and the value it stores through its
  output-by-reference parameter, if any;
* the guest memory translator (`Memory::GetPointer`, `Memory::GetCharPointer`
  of `core/mem_map.h`) is a parameter;
* conversions between signed and unsigned integer types keep the bit pattern;
* `Wrap` gives the register file a wrapper leaves, `WrapEvents` what the wrapper
  does in the order of its statements (the call of the wrapped function, the
  `SetReg` calls); the register file of `Wrap` is the one the events leave.
-/

namespace HLE

abbrev u32 := Fin 4294967296

/-- The guest register file `GetReg` reads and `SetReg` writes. -/
abbrev Registers := Nat → u32

/-- Truncation of a number to 32 bits. -/
def toU32 (n : Nat) : u32 := ⟨n % 4294967296, Nat.mod_lt n (by decide)⟩

/-- The 32-bit two's-complement pattern of a signed value: the conversion to `u32`. -/
def pattern32 (v : Int) : Nat := (v % 4294967296).toNat

/-- The 64-bit two's-complement pattern of a signed value: the conversion to `u64`. -/
def pattern64 (v : Int) : Nat := (v % 18446744073709551616).toNat

/-- The conversion of a 32-bit pattern to `s32`. -/
def toS32 (n : Nat) : Int := if n < 2147483648 then (n : Int) else (n : Int) - 4294967296

/-- The conversion of a 64-bit pattern to `s64`. -/
def toS64 (n : Nat) : Int :=
  if n < 9223372036854775808 then (n : Int) else (n : Int) - 18446744073709551616

/-- The macro `PARAM(n)`, that is `Core::g_app_core->GetReg(n)`. -/
def PARAM (regs : Registers) (n : Nat) : Nat := (regs n).val

/-- The call `Core::g_app_core->SetReg(n, v)`. -/
def SetReg (regs : Registers) (n v : Nat) : Registers :=
  fun i => if i = n then toU32 v else regs i

/-- HLE a function return from the current ARM11 userland process. -/
def FuncReturn (regs : Registers) (res : Nat) : Registers := SetReg regs 0 res

/-- HLE a function return (64-bit) from the current ARM11 userland process. -/
def FuncReturn64 (regs : Registers) (res : Nat) : Registers :=
  SetReg (SetReg regs 0 (res &&& 0xFFFFFFFF)) 1 ((res >>> 32) &&& 0xFFFFFFFF)

/-- The guest memory translator: the host pointer for a guest address, `none`
for a null pointer. -/
structure Translator where
  GetPointer : Nat → Option Nat
  GetCharPointer : Nat → Option Nat

/-- An argument value passed to a wrapped function. -/
inductive Arg where
  | u32 (v : Nat)
  | s32 (v : Int)
  | bool (b : Bool)
  | s64 (v : Int)
  | pointer (host : Option Nat)
  | cstring (host : Option Nat)
  | out_u32
  | out_s32
  deriving DecidableEq

/-- What a call of a wrapped function produces: the value returned (if the
function is not `void`) and the value stored through the pointer to the scratch
variable `param_1` (`none` when the function never stores there). -/
structure HandlerResult where
  retval : Int
  param_1 : Option Int

abbrev Handler := List Arg → HandlerResult

/-- The kinds of parameter in the signatures of the wrapped functions. -/
inductive Slot where
  | word
  | signedWord
  | boolean
  | split64
  | bufferPointer
  | stringPointer
  | outWord
  | outSignedWord
  deriving DecidableEq

/-- The signatures `Wrap` is specialised for, in the order of the header. -/
inductive Shape where
  | s32_u32_u32_u32_u32
  | s32_u32_u32_u32_u32_u32
  | s32_u32p_u32_u32_u32_u32_u32
  | s32_s32p_u32p_s32_bool_s64
  | s32_u32_u32_u32_u32_s64
  | s32_u32p
  | s32_u32_s64
  | s32_voidp_voidp_u32
  | s32_s32p_u32
  | s32_u32_s32
  | s32_u32p_u32
  | s32_u32
  | s32_voidp
  | s32_s64p_u32_voidp_s32
  | s32_u32p_cstr
  | s32_u32p_s32_s32
  | s32_s32p_u32_s32
  | u32_void
  | s64_void
  | void_s64
  | void_cstr
  deriving DecidableEq

open Slot in
/-- The parameter list of each signature. A `u32*` or `s32*` first parameter is
an output word; the other pointers are translated guest addresses. -/
def slots : Shape → List Slot
  | .s32_u32_u32_u32_u32 => [word, word, word, word]
  | .s32_u32_u32_u32_u32_u32 => [word, word, word, word, word]
  | .s32_u32p_u32_u32_u32_u32_u32 => [outWord, word, word, word, word, word]
  | .s32_s32p_u32p_s32_bool_s64 => [outSignedWord, bufferPointer, signedWord, boolean, split64]
  | .s32_u32_u32_u32_u32_s64 => [word, word, word, word, split64]
  | .s32_u32p => [outWord]
  | .s32_u32_s64 => [word, split64]
  | .s32_voidp_voidp_u32 => [bufferPointer, bufferPointer, word]
  | .s32_s32p_u32 => [outSignedWord, word]
  | .s32_u32_s32 => [word, signedWord]
  | .s32_u32p_u32 => [outWord, word]
  | .s32_u32 => [word]
  | .s32_voidp => [bufferPointer]
  | .s32_s64p_u32_voidp_s32 => [bufferPointer, word, bufferPointer, signedWord]
  | .s32_u32p_cstr => [outWord, stringPointer]
  | .s32_u32p_s32_s32 => [outWord, signedWord, signedWord]
  | .s32_s32p_u32_s32 => [outSignedWord, word, signedWord]
  | .u32_void => []
  | .s64_void => []
  | .void_s64 => [split64]
  | .void_cstr => [stringPointer]

/-- The actual arguments of the call `func(...)` in each `Wrap`. -/
def args (T : Translator) (regs : Registers) : Shape → List Arg
  | .s32_u32_u32_u32_u32 =>
    [.u32 (PARAM regs 0), .u32 (PARAM regs 1), .u32 (PARAM regs 2), .u32 (PARAM regs 3)]
  | .s32_u32_u32_u32_u32_u32 =>
    [.u32 (PARAM regs 0), .u32 (PARAM regs 1), .u32 (PARAM regs 2), .u32 (PARAM regs 3),
      .u32 (PARAM regs 4)]
  | .s32_u32p_u32_u32_u32_u32_u32 =>
    [.out_u32, .u32 (PARAM regs 0), .u32 (PARAM regs 1), .u32 (PARAM regs 2), .u32 (PARAM regs 3),
      .u32 (PARAM regs 4)]
  | .s32_s32p_u32p_s32_bool_s64 =>
    [.out_s32, .pointer (T.GetPointer (PARAM regs 1)), .s32 (toS32 (PARAM regs 2)),
      .bool (PARAM regs 3 != 0), .s64 (toS64 ((PARAM regs 4 <<< 32) ||| PARAM regs 0))]
  | .s32_u32_u32_u32_u32_s64 =>
    [.u32 (PARAM regs 0), .u32 (PARAM regs 1), .u32 (PARAM regs 2), .u32 (PARAM regs 3),
      .s64 (toS64 ((PARAM regs 5 <<< 32) ||| PARAM regs 4))]
  | .s32_u32p => [.out_u32]
  | .s32_u32_s64 => [.u32 (PARAM regs 0), .s64 (toS64 ((PARAM regs 3 <<< 32) ||| PARAM regs 2))]
  | .s32_voidp_voidp_u32 =>
    [.pointer (T.GetPointer (PARAM regs 0)), .pointer (T.GetPointer (PARAM regs 1)),
      .u32 (PARAM regs 2)]
  | .s32_s32p_u32 => [.out_s32, .u32 (PARAM regs 1)]
  | .s32_u32_s32 => [.u32 (PARAM regs 0), .s32 (toS32 (PARAM regs 1))]
  | .s32_u32p_u32 => [.out_u32, .u32 (PARAM regs 1)]
  | .s32_u32 => [.u32 (PARAM regs 0)]
  | .s32_voidp => [.pointer (T.GetPointer (PARAM regs 0))]
  | .s32_s64p_u32_voidp_s32 =>
    [.pointer (T.GetPointer (PARAM regs 0)), .u32 (PARAM regs 1),
      .pointer (T.GetPointer (PARAM regs 2)), .s32 (toS32 (PARAM regs 3))]
  | .s32_u32p_cstr => [.out_u32, .cstring (T.GetCharPointer (PARAM regs 1))]
  | .s32_u32p_s32_s32 => [.out_u32, .s32 (toS32 (PARAM regs 1)), .s32 (toS32 (PARAM regs 2))]
  | .s32_s32p_u32_s32 => [.out_s32, .u32 (PARAM regs 1), .s32 (toS32 (PARAM regs 2))]
  | .u32_void => []
  | .s64_void => []
  | .void_s64 => [.s64 (toS64 ((PARAM regs 1 <<< 32) ||| PARAM regs 0))]
  | .void_cstr => [.cstring (T.GetCharPointer (PARAM regs 0))]

/-- The body of a `Wrap` that only returns the function's 32-bit result:
`FuncReturn(func(...))`. -/
def wrapReturn (regs : Registers) (r : HandlerResult) : Registers :=
  FuncReturn regs (pattern32 r.retval)

/-- The body of a `Wrap` with a scratch variable: `param_1 = 0` before the call,
then `SetReg(1, param_1)` and `FuncReturn(retval)`. -/
def wrapOutput (regs : Registers) (r : HandlerResult) : Registers :=
  FuncReturn (SetReg regs 1 (pattern32 (r.param_1.getD 0))) (pattern32 r.retval)

/-- The template `Wrap` for each signature: the register file after the call. -/
def Wrap (T : Translator) (func : Handler) (regs : Registers) : Shape → Registers
  | .s32_u32_u32_u32_u32 => wrapReturn regs (func (args T regs .s32_u32_u32_u32_u32))
  | .s32_u32_u32_u32_u32_u32 => wrapReturn regs (func (args T regs .s32_u32_u32_u32_u32_u32))
  | .s32_u32p_u32_u32_u32_u32_u32 =>
    wrapOutput regs (func (args T regs .s32_u32p_u32_u32_u32_u32_u32))
  | .s32_s32p_u32p_s32_bool_s64 =>
    wrapOutput regs (func (args T regs .s32_s32p_u32p_s32_bool_s64))
  | .s32_u32_u32_u32_u32_s64 => wrapReturn regs (func (args T regs .s32_u32_u32_u32_u32_s64))
  | .s32_u32p => wrapOutput regs (func (args T regs .s32_u32p))
  | .s32_u32_s64 => wrapReturn regs (func (args T regs .s32_u32_s64))
  | .s32_voidp_voidp_u32 => wrapReturn regs (func (args T regs .s32_voidp_voidp_u32))
  | .s32_s32p_u32 => wrapOutput regs (func (args T regs .s32_s32p_u32))
  | .s32_u32_s32 => wrapReturn regs (func (args T regs .s32_u32_s32))
  | .s32_u32p_u32 => wrapOutput regs (func (args T regs .s32_u32p_u32))
  | .s32_u32 => wrapReturn regs (func (args T regs .s32_u32))
  | .s32_voidp => wrapReturn regs (func (args T regs .s32_voidp))
  | .s32_s64p_u32_voidp_s32 => wrapReturn regs (func (args T regs .s32_s64p_u32_voidp_s32))
  | .s32_u32p_cstr => wrapOutput regs (func (args T regs .s32_u32p_cstr))
  | .s32_u32p_s32_s32 => wrapOutput regs (func (args T regs .s32_u32p_s32_s32))
  | .s32_s32p_u32_s32 => wrapOutput regs (func (args T regs .s32_s32p_u32_s32))
  | .u32_void => wrapReturn regs (func (args T regs .u32_void))
  | .s64_void => FuncReturn64 regs (pattern64 (func (args T regs .s64_void)).retval)
  | .void_s64 =>
    let _ := func (args T regs .void_s64)
    regs
  | .void_cstr =>
    let _ := func (args T regs .void_cstr)
    regs

/-- What a `Wrap` does that is visible from outside: the call of the wrapped
function with its arguments, and a call `SetReg(n, v)`. -/
inductive Event where
  | call (arguments : List Arg)
  | setReg (n v : Nat)
  deriving DecidableEq

/-- The register file after the `SetReg` calls of a list of events, in their
order. -/
def replay (regs : Registers) : List Event → Registers
  | [] => regs
  | .call _ :: l => replay regs l
  | .setReg n v :: l => replay (SetReg regs n v) l

/-- The events of a `Wrap` whose body is `FuncReturn(func(...))`. -/
def returnEvents (func : Handler) (a : List Arg) : List Event :=
  [.call a, .setReg 0 (pattern32 (func a).retval)]

/-- The events of a `Wrap` with a scratch variable: the call, `SetReg(1, param_1)`,
then `FuncReturn(retval)`. -/
def outputEvents (func : Handler) (a : List Arg) : List Event :=
  [.call a, .setReg 1 (pattern32 ((func a).param_1.getD 0)), .setReg 0 (pattern32 (func a).retval)]

/-- The template `Wrap` for each signature, statement by statement: what it does,
in the order in which it does it. -/
def WrapEvents (T : Translator) (func : Handler) (regs : Registers) : Shape → List Event
  | .s32_u32_u32_u32_u32 =>
    returnEvents func
      [.u32 (PARAM regs 0), .u32 (PARAM regs 1), .u32 (PARAM regs 2), .u32 (PARAM regs 3)]
  | .s32_u32_u32_u32_u32_u32 =>
    returnEvents func
      [.u32 (PARAM regs 0), .u32 (PARAM regs 1), .u32 (PARAM regs 2), .u32 (PARAM regs 3),
        .u32 (PARAM regs 4)]
  | .s32_u32p_u32_u32_u32_u32_u32 =>
    outputEvents func
      [.out_u32, .u32 (PARAM regs 0), .u32 (PARAM regs 1), .u32 (PARAM regs 2),
        .u32 (PARAM regs 3), .u32 (PARAM regs 4)]
  | .s32_s32p_u32p_s32_bool_s64 =>
    outputEvents func
      [.out_s32, .pointer (T.GetPointer (PARAM regs 1)), .s32 (toS32 (PARAM regs 2)),
        .bool (PARAM regs 3 != 0), .s64 (toS64 ((PARAM regs 4 <<< 32) ||| PARAM regs 0))]
  | .s32_u32_u32_u32_u32_s64 =>
    returnEvents func
      [.u32 (PARAM regs 0), .u32 (PARAM regs 1), .u32 (PARAM regs 2), .u32 (PARAM regs 3),
        .s64 (toS64 ((PARAM regs 5 <<< 32) ||| PARAM regs 4))]
  | .s32_u32p => outputEvents func [.out_u32]
  | .s32_u32_s64 =>
    returnEvents func
      [.u32 (PARAM regs 0), .s64 (toS64 ((PARAM regs 3 <<< 32) ||| PARAM regs 2))]
  | .s32_voidp_voidp_u32 =>
    returnEvents func
      [.pointer (T.GetPointer (PARAM regs 0)), .pointer (T.GetPointer (PARAM regs 1)),
        .u32 (PARAM regs 2)]
  | .s32_s32p_u32 => outputEvents func [.out_s32, .u32 (PARAM regs 1)]
  | .s32_u32_s32 => returnEvents func [.u32 (PARAM regs 0), .s32 (toS32 (PARAM regs 1))]
  | .s32_u32p_u32 => outputEvents func [.out_u32, .u32 (PARAM regs 1)]
  | .s32_u32 => returnEvents func [.u32 (PARAM regs 0)]
  | .s32_voidp => returnEvents func [.pointer (T.GetPointer (PARAM regs 0))]
  | .s32_s64p_u32_voidp_s32 =>
    returnEvents func
      [.pointer (T.GetPointer (PARAM regs 0)), .u32 (PARAM regs 1),
        .pointer (T.GetPointer (PARAM regs 2)), .s32 (toS32 (PARAM regs 3))]
  | .s32_u32p_cstr => outputEvents func [.out_u32, .cstring (T.GetCharPointer (PARAM regs 1))]
  | .s32_u32p_s32_s32 =>
    outputEvents func [.out_u32, .s32 (toS32 (PARAM regs 1)), .s32 (toS32 (PARAM regs 2))]
  | .s32_s32p_u32_s32 =>
    outputEvents func [.out_s32, .u32 (PARAM regs 1), .s32 (toS32 (PARAM regs 2))]
  | .u32_void => returnEvents func []
  | .s64_void =>
    [.call [], .setReg 0 (pattern64 (func []).retval &&& 0xFFFFFFFF),
      .setReg 1 ((pattern64 (func []).retval >>> 32) &&& 0xFFFFFFFF)]
  | .void_s64 => [.call [.s64 (toS64 ((PARAM regs 1 <<< 32) ||| PARAM regs 0))]]
  | .void_cstr => [.call [.cstring (T.GetCharPointer (PARAM regs 0))]]

/-- The argument-slot rules as the specification words them: the slots take their
registers left to right from register `n` on; a word, signed word, boolean,
buffer pointer or string pointer takes one register, a split 64-bit value two
(low word first), an output word none. -/
def specArgs (T : Translator) (regs : Registers) : List Slot → Nat → List Arg
  | [], _ => []
  | .word :: l, n => .u32 (PARAM regs n) :: specArgs T regs l (n + 1)
  | .signedWord :: l, n => .s32 (toS32 (PARAM regs n)) :: specArgs T regs l (n + 1)
  | .boolean :: l, n => .bool (PARAM regs n != 0) :: specArgs T regs l (n + 1)
  | .split64 :: l, n =>
    .s64 (toS64 ((PARAM regs (n + 1) <<< 32) ||| PARAM regs n)) :: specArgs T regs l (n + 2)
  | .bufferPointer :: l, n => .pointer (T.GetPointer (PARAM regs n)) :: specArgs T regs l (n + 1)
  | .stringPointer :: l, n =>
    .cstring (T.GetCharPointer (PARAM regs n)) :: specArgs T regs l (n + 1)
  | .outWord :: l, n => .out_u32 :: specArgs T regs l n
  | .outSignedWord :: l, n => .out_s32 :: specArgs T regs l n

/-- The register file holding the values of `l` in registers 0, 1, ... (zero in
the others). -/
def regsOf (l : List u32) : Registers := fun i => l.getD i 0

/-- A translator that finds no host pointer. -/
def nullTranslator : Translator := ⟨fun _ => none, fun _ => none⟩

/-- A wrapped function that returns its second argument, a word, and stores 42
through its first argument, the pointer to the scratch variable. -/
def secondWord : Handler
  | [_, .u32 v] => ⟨v, some 42⟩
  | _ => ⟨0, some 42⟩

/-- The signatures whose arguments `Wrap` reads as the argument-slot rules say. -/
def conformingShapes : List Shape :=
  [.s32_u32_u32_u32_u32, .s32_u32_u32_u32_u32_u32, .s32_u32p_u32_u32_u32_u32_u32,
    .s32_u32_u32_u32_u32_s64, .s32_u32p, .s32_voidp_voidp_u32, .s32_u32_s32, .s32_u32,
    .s32_voidp, .s32_s64p_u32_voidp_s32, .u32_void, .s64_void, .void_s64, .void_cstr]

/-- The signatures with an output word for which `Wrap` leaves register 0 out. -/
def skippingShapes : List Shape :=
  [.s32_s32p_u32, .s32_u32p_u32, .s32_u32p_cstr, .s32_u32p_s32_s32, .s32_s32p_u32_s32]

/-- The signatures whose first parameter is an output word. -/
def outputShapes : List Shape :=
  [.s32_u32p_u32_u32_u32_u32_u32, .s32_s32p_u32p_s32_bool_s64, .s32_u32p, .s32_s32p_u32,
    .s32_u32p_u32, .s32_u32p_cstr, .s32_u32p_s32_s32, .s32_s32p_u32_s32]

/-- The signatures of the functions that return a 32-bit result and have no
output word. -/
def plainResultShapes : List Shape :=
  [.s32_u32_u32_u32_u32, .s32_u32_u32_u32_u32_u32, .s32_u32_u32_u32_u32_s64, .s32_u32_s64,
    .s32_voidp_voidp_u32, .s32_u32_s32, .s32_u32, .s32_voidp, .s32_s64p_u32_voidp_s32,
    .u32_void]

/-- The wrapper of `func` for the signature `shape` calls `func` with the
arguments `a`: the call with `a` is its first event, the register file it
returns is the one its events leave, and that register file is the result
encoding of the signature applied to what `func` returns for `a`. -/
def CallsWith (T : Translator) (func : Handler) (regs : Registers) (shape : Shape)
    (a : List Arg) : Prop :=
  (WrapEvents T func regs shape).head? = some (.call a) ∧
  Wrap T func regs shape = replay regs (WrapEvents T func regs shape) ∧
  (shape ∈ plainResultShapes → Wrap T func regs shape = wrapReturn regs (func a)) ∧
  (shape ∈ outputShapes → Wrap T func regs shape = wrapOutput regs (func a)) ∧
  (shape = .s64_void →
    Wrap T func regs shape = FuncReturn64 regs (pattern64 (func a).retval)) ∧
  (shape = .void_s64 ∨ shape = .void_cstr →
    WrapEvents T func regs shape = [.call a] ∧ Wrap T func regs shape = regs)

end HLE

/-!
# CFG:U configuration savegame (`core/hle/service/cfg_u.cpp`)

A shallow embedding of the config savegame buffer and of the service functions
that read and write it, followed by theorems about them.

Conventions of the embedding:

* a `u8` cell is a `Fin 256`; memory (the 0x8000-byte `cfg_config_file_buffer`,
  a caller's `data` / `output` pointer) is a function from byte index to `u8`;
* every access to `cfg_config_file_buffer` outside `[0, CONFIG_SAVEFILE_SIZE)`
  is undefined behaviour in the source and makes the embedded function
  return `none`;
* multi-byte fields are little endian (the layout of the savegame file), and
  arithmetic on `u16` / `u32` values is arithmetic on `Nat` with an explicit
  `% 2 ^ w` wherever the source can wrap or truncate;
* a `ResultCode` is its raw 32-bit value.
-/

namespace CFG_U

/-! ## Bytes and memory -/

abbrev u8 := Fin 256

/-- Byte-addressed memory: the cell at each index. -/
abbrev Memory := Nat → u8

/-- Truncation of a number to its low byte. -/
def toByte (n : Nat) : u8 := ⟨n % 256, Nat.mod_lt n (by decide)⟩

/-- Memory holding the bytes of `l` from index 0 on (zero beyond its end). -/
def ofBytes (l : List u8) : Memory := fun a => l.getD a 0

/-- The `n` bytes of `m` starting at index `a`. -/
def bytesAt (m : Memory) (a n : Nat) : List u8 := (List.range n).map (fun i => m (a + i))

/-- The call `memcpy(dst + d, src + s, n)` on two distinct objects. -/
def memcpy (dst : Memory) (d : Nat) (src : Memory) (s n : Nat) : Memory :=
  fun a => if d ≤ a ∧ a < d + n then src (s + (a - d)) else dst a

def writeU8 (m : Memory) (a v : Nat) : Memory :=
  fun x => if x = a then toByte v else m x

/-- Store of a `u16` (little endian); the value is truncated to 16 bits. -/
def writeU16 (m : Memory) (a v : Nat) : Memory :=
  writeU8 (writeU8 m a v) (a + 1) (v / 256)

/-- Store of a `u32` (little endian); the value is truncated to 32 bits. -/
def writeU32 (m : Memory) (a v : Nat) : Memory :=
  writeU8 (writeU8 (writeU8 (writeU8 m a v) (a + 1) (v / 256)) (a + 2) (v / 65536))
    (a + 3) (v / 16777216)

def readU16 (m : Memory) (a : Nat) : Nat :=
  (m a).val + 256 * (m (a + 1)).val

def readU32 (m : Memory) (a : Nat) : Nat :=
  (m a).val + 256 * (m (a + 1)).val + 65536 * (m (a + 2)).val + 16777216 * (m (a + 3)).val

/-! ## Constants of `cfg_u.cpp` -/

def NINTENDO_3DS_XL : Nat := 1
def LANGUAGE_EN : Nat := 1

def CONSOLE_UNIQUE_ID : Nat := 0xDEADC0DE
def CONSOLE_MODEL : Nat := NINTENDO_3DS_XL
def CONSOLE_LANGUAGE : Nat := LANGUAGE_EN
def CONFIG_SAVEFILE_SIZE : Nat := 0x8000

def STEREO_CAMERA_SETTINGS : List u8 := [
  0x00, 0x00, 0x78, 0x42, 0x00, 0x80, 0x90, 0x43, 0x9A, 0x99, 0x99, 0x42, 0xEC, 0x51, 0x38, 0x42,
  0x00, 0x00, 0x20, 0x41, 0x00, 0x00, 0xA0, 0x40, 0xEC, 0x51, 0x5E, 0x42, 0x5C, 0x8F, 0xAC, 0x41]

def RESULT_SUCCESS : Nat := 0

/-- The raw value of `ResultCode(-1)`. -/
def RESULT_MINUS_ONE : Nat := 0xFFFFFFFF

/-- Object representation of a `u32` object: its four bytes, low byte first. -/
def bytesOfU32 (v : Nat) : List u8 :=
  [toByte v, toByte (v / 256), toByte (v / 65536), toByte (v / 16777216)]

/-- Object representation of a `u64` object: its eight bytes, low byte first. -/
def bytesOfU64 (v : Nat) : List u8 :=
  bytesOfU32 v ++ bytesOfU32 (v / 4294967296)

/-! ## Country codes -/

/-- The macro `C(code)`: the two characters of the code, packed low byte first. -/
def C (c0 c1 : Char) : Nat := c0.toNat ||| (c1.toNat <<< 8)

def country_codes : List Nat := [
  0, C 'J' 'P', 0, 0, 0, 0, 0, 0,  -- 0-7
  C 'A' 'I', C 'A' 'G', C 'A' 'R', C 'A' 'W', C 'B' 'S', C 'B' 'B', C 'B' 'Z', C 'B' 'O',  -- 8-15
  C 'B' 'R', C 'V' 'G', C 'C' 'A', C 'K' 'Y', C 'C' 'L', C 'C' 'O', C 'C' 'R', C 'D' 'M',  -- 16-23
  C 'D' 'O', C 'E' 'C', C 'S' 'V', C 'G' 'F', C 'G' 'D', C 'G' 'P', C 'G' 'T', C 'G' 'Y',  -- 24-31
  C 'H' 'T', C 'H' 'N', C 'J' 'M', C 'M' 'Q', C 'M' 'X', C 'M' 'S', C 'A' 'N', C 'N' 'I',  -- 32-39
  C 'P' 'A', C 'P' 'Y', C 'P' 'E', C 'K' 'N', C 'L' 'C', C 'V' 'C', C 'S' 'R', C 'T' 'T',  -- 40-47
  C 'T' 'C', C 'U' 'S', C 'U' 'Y', C 'V' 'I', C 'V' 'E', 0, 0, 0,  -- 48-55
  0, 0, 0, 0, 0, 0, 0, 0,  -- 56-63
  C 'A' 'L', C 'A' 'U', C 'A' 'T', C 'B' 'E', C 'B' 'A', C 'B' 'W', C 'B' 'G', C 'H' 'R',  -- 64-71
  C 'C' 'Y', C 'C' 'Z', C 'D' 'K', C 'E' 'E', C 'F' 'I', C 'F' 'R', C 'D' 'E', C 'G' 'R',  -- 72-79
  C 'H' 'U', C 'I' 'S', C 'I' 'E', C 'I' 'T', C 'L' 'V', C 'L' 'S', C 'L' 'I', C 'L' 'T',  -- 80-87
  C 'L' 'U', C 'M' 'K', C 'M' 'T', C 'M' 'E', C 'M' 'Z', C 'N' 'A', C 'N' 'L', C 'N' 'Z',  -- 88-95
  C 'N' 'O', C 'P' 'L', C 'P' 'T', C 'R' 'O', C 'R' 'U', C 'R' 'S', C 'S' 'K', C 'S' 'I',  -- 96-103
  C 'Z' 'A', C 'E' 'S', C 'S' 'Z', C 'S' 'E', C 'C' 'H', C 'T' 'R', C 'G' 'B', C 'Z' 'M',  -- 104-111
  C 'Z' 'W', C 'A' 'Z', C 'M' 'R', C 'M' 'L', C 'N' 'E', C 'T' 'D', C 'S' 'D', C 'E' 'R',  -- 112-119
  C 'D' 'J', C 'S' 'O', C 'A' 'D', C 'G' 'I', C 'G' 'G', C 'I' 'M', C 'J' 'E', C 'M' 'C',  -- 120-127
  C 'T' 'W', 0, 0, 0, 0, 0, 0, 0,  -- 128-135
  C 'K' 'R', 0, 0, 0, 0, 0, 0, 0,  -- 136-143
  C 'H' 'K', C 'M' 'O', 0, 0, 0, 0, 0, 0,  -- 144-151
  C 'I' 'D', C 'S' 'G', C 'T' 'H', C 'P' 'H', C 'M' 'Y', 0, 0, 0,  -- 152-159
  C 'C' 'N', 0, 0, 0, 0, 0, 0, 0,  -- 160-167
  C 'A' 'E', C 'I' 'N', C 'E' 'G', C 'O' 'M', C 'Q' 'A', C 'K' 'W', C 'S' 'A', C 'S' 'Y',  -- 168-175
  C 'B' 'H', C 'J' 'O', 0, 0, 0, 0, 0, 0,  -- 176-183
  C 'S' 'M', C 'V' 'A', C 'B' 'M'  -- 184-186
  ]

/-- A command buffer: the 32-bit word in each slot. -/
abbrev CommandBuffer := Nat → Nat

/-- The store `cmd_buffer[i] = v`. -/
def setWord (cmd_buffer : CommandBuffer) (i v : Nat) : CommandBuffer :=
  fun j => if j = i then v else cmd_buffer j

/-- The service function `CFG_User::GetCountryCodeString`. The parameter `notFound` is
the raw value of `ResultCode(ErrorDescription::NotFound, ErrorModule::Config,
ErrorSummary::WrongArgument, ErrorLevel::Permanent)`, which `core/hle/result.h`
defines. -/
def GetCountryCodeString (notFound : Nat) (cmd_buffer : CommandBuffer) : CommandBuffer :=
  let country_code_id := cmd_buffer 1
  if country_code_id ≥ country_codes.length ∨ 0 = country_codes.getD country_code_id 0 then
    setWord cmd_buffer 1 notFound
  else
    setWord (setWord cmd_buffer 1 0) 2 (country_codes.getD country_code_id 0)

/-- The `for` loop of `GetCountryCodeID` over the remaining table entries `l`, the
first of which has the index `id`: the value of `country_code_id` after the loop
(its initial value 0 when no entry equals the code). -/
def searchCountryCode (country_code : Nat) : List Nat → Nat → Nat
  | [], _ => 0
  | c :: l, id =>
    if c = country_code then id % 65536 else searchCountryCode country_code l (id + 1)

/-- The service function `CFG_User::GetCountryCodeID`; `notFound` as in
`GetCountryCodeString`. -/
def GetCountryCodeID (notFound : Nat) (cmd_buffer : CommandBuffer) : CommandBuffer :=
  let country_code := cmd_buffer 1 % 65536
  let country_code_id := searchCountryCode country_code country_codes 0
  if 0 = country_code_id then
    setWord (setWord cmd_buffer 1 notFound) 2 0xFFFF
  else
    setWord (setWord cmd_buffer 1 0) 2 country_code_id

/-! ## Layout of `SaveFileConfig` -/

/-- Block header in the config savedata file. -/
structure SaveConfigBlockEntry where
  block_id : Nat
  offset_or_data : Nat
  size : Nat
  flags : Nat
  deriving DecidableEq

/-- Number of elements of `SaveFileConfig::block_entries`. -/
def BLOCK_ENTRIES : Nat := 1479

/-- Size in bytes of a `SaveConfigBlockEntry`. -/
def ENTRY_SIZE : Nat := 12

/-- Byte offset of `block_entries[i]` in the buffer. -/
def entryAddr (i : Nat) : Nat := 4 + ENTRY_SIZE * i

/-- Byte offset of the field `unknown`. -/
def unknownAddr : Nat := entryAddr BLOCK_ENTRIES

/-- Value of `sizeof(SaveFileConfig)`. -/
def HEADER_SIZE : Nat := unknownAddr + 4

/-- Field `config->total_entries`. -/
def total_entries (buf : Memory) : Nat := readU16 buf 0

/-- Field `config->data_entries_offset`. -/
def data_entries_offset (buf : Memory) : Nat := readU16 buf 2

/-- Value of `config->block_entries[i]`. -/
def readEntry (buf : Memory) (i : Nat) : SaveConfigBlockEntry :=
  { block_id := readU32 buf (entryAddr i)
    offset_or_data := readU32 buf (entryAddr i + 4)
    size := readU16 buf (entryAddr i + 8)
    flags := readU16 buf (entryAddr i + 10) }

/-- Assignment `config->block_entries[i] = e` (fields truncated to their widths). -/
def writeEntry (buf : Memory) (i : Nat) (e : SaveConfigBlockEntry) : Memory :=
  writeU16 (writeU16 (writeU32 (writeU32 buf (entryAddr i) e.block_id)
    (entryAddr i + 4) e.offset_or_data) (entryAddr i + 8) e.size) (entryAddr i + 10) e.flags

/-! ## `GetConfigInfoBlock` -/

/-- The predicate of the `std::find_if` in `GetConfigInfoBlock`, at entry `i`. -/
def entryMatches (buf : Memory) (block_id size flag : Nat) (i : Nat) : Bool :=
  (readEntry buf i).block_id == block_id && (readEntry buf i).size == size &&
    ((readEntry buf i).flags &&& flag) != 0

/-- The iterator a `std::find_if` over the `n` indices from `first` on returns:
the first index satisfying `p`, or the end `first + n`. -/
def find_if (p : Nat → Bool) : Nat → Nat → Nat
  | 0, first => first
  | n + 1, first => if p first then first else find_if p n (first + 1)

/-- Reads a block with the specified id and flag from the config savegame buffer
and writes it to `output`. Returns the result code and the memory at `output`
after the call. -/
def GetConfigInfoBlock (buf : Memory) (block_id size flag : Nat) (output : Memory) :
    Option (Nat × Memory) :=
  let itr := find_if (entryMatches buf block_id size flag) BLOCK_ENTRIES 0
  if itr = BLOCK_ENTRIES then
    some (RESULT_MINUS_ONE, output)
  else if (readEntry buf itr).size ≤ 4 then
    some (RESULT_SUCCESS, memcpy output 0 buf (entryAddr itr + 4) (readEntry buf itr).size)
  else
    let src := (data_entries_offset buf + (readEntry buf itr).offset_or_data) % 2 ^ 32
    if CONFIG_SAVEFILE_SIZE < src + (readEntry buf itr).size then none
    else some (RESULT_SUCCESS, memcpy output 0 buf src (readEntry buf itr).size)

/-! ## `CreateConfigInfoBlk` -/

/-- The search loop of `CreateConfigInfoBlk`: `k` is the loop variable
`total_entries` plus one, the result is the final value of `offset`. -/
def nextOffset (buf : Memory) : Nat → Nat
  | 0 => 0
  | k + 1 =>
    if (readEntry buf k).size ≤ 4 then nextOffset buf k
    else ((readEntry buf k).offset_or_data + (readEntry buf k).size) % 2 ^ 32

/-- Creates a block with the specified id and writes the input data to the
config savegame buffer. Returns the result code and the buffer after the call. -/
def CreateConfigInfoBlk (buf : Memory) (block_id size flags : Nat) (data : Memory) :
    Option (Nat × Memory) :=
  if CONFIG_SAVEFILE_SIZE < entryAddr (total_entries buf) + ENTRY_SIZE then none
  else
    let buf1 := writeEntry buf (total_entries buf) ⟨block_id, 0, size, flags⟩
    if 4 < size then
      let offset := nextOffset buf1 (total_entries buf1)
      let buf2 := writeU32 buf1 (entryAddr (total_entries buf1) + 4) offset
      let dst := (data_entries_offset buf2 + offset) % 2 ^ 32
      if CONFIG_SAVEFILE_SIZE < dst + size then none
      else
        let buf3 := memcpy buf2 dst data 0 size
        some (RESULT_SUCCESS, writeU16 buf3 0 (total_entries buf3 + 1))
    else
      let buf2 := memcpy buf1 (entryAddr (total_entries buf1) + 4) data 0 size
      some (RESULT_SUCCESS, writeU16 buf2 0 (total_entries buf2 + 1))

/-! ## The savegame file and `FormatConfig` -/

/-- The state the service functions act on: the in-memory buffer and the contents
of the file "config" of the system save data archive (`none`: no such file). -/
structure State where
  cfg_config_file_buffer : Memory
  config_file : Option (List u8)

/-- Deletes the config savegame file; the buffer in memory is not affected.
`deleted` is what the archive's `DeleteFile` returns. -/
def DeleteConfigNANDSaveFile (deleted : Bool) (s : State) : Nat × State :=
  if deleted then (RESULT_SUCCESS, { s with config_file := none })
  else (RESULT_MINUS_ONE, s)

/-- Writes the buffer to the config savegame file. `opened` tells whether the
archive's `OpenFile` returns a file; the source dereferences a null pointer
otherwise. -/
def UpdateConfigNANDSavegame (opened : Bool) (s : State) : Option (Nat × State) :=
  if opened then
    some (RESULT_SUCCESS,
      { s with config_file := some (bytesAt s.cfg_config_file_buffer 0 CONFIG_SAVEFILE_SIZE ++
          (s.config_file.getD []).drop CONFIG_SAVEFILE_SIZE) })
  else none

/-- The buffer after `std::fill(begin, end, 0)`. -/
def zeroFilled : Memory := fun _ => 0

/-- Re-creates the config savegame in memory and in the file with the default
blocks. -/
def FormatConfig (deleted opened : Bool) (s : State) : Option (Nat × State) :=
  let r := DeleteConfigNANDSaveFile deleted s
  if r.1 ≠ RESULT_SUCCESS then some r
  else
    let buf0 := writeU16 zeroFilled 2 0x455C
    match CreateConfigInfoBlk buf0 0x00050005 0x20 0xE (ofBytes STEREO_CAMERA_SETTINGS) with
    | none => none
    | some (res1, buf1) =>
    if res1 ≠ RESULT_SUCCESS then some (res1, { r.2 with cfg_config_file_buffer := buf1 })
    else
    match CreateConfigInfoBlk buf1 0x00090001 0x8 0xE (ofBytes (bytesOfU64 CONSOLE_UNIQUE_ID)) with
    | none => none
    | some (res2, buf2) =>
    if res2 ≠ RESULT_SUCCESS then some (res2, { r.2 with cfg_config_file_buffer := buf2 })
    else
    match CreateConfigInfoBlk buf2 0x000F0004 0x4 0x8 (ofBytes (bytesOfU32 CONSOLE_MODEL)) with
    | none => none
    | some (res3, buf3) =>
    if res3 ≠ RESULT_SUCCESS then some (res3, { r.2 with cfg_config_file_buffer := buf3 })
    else
    match CreateConfigInfoBlk buf3 0x000A0002 0x1 0xA (ofBytes [toByte CONSOLE_LANGUAGE]) with
    | none => none
    | some (res4, buf4) =>
    if res4 ≠ RESULT_SUCCESS then some (res4, { r.2 with cfg_config_file_buffer := buf4 })
    else
    match UpdateConfigNANDSavegame opened { r.2 with cfg_config_file_buffer := buf4 } with
    | none => none
    | some (res5, s5) =>
    if res5 ≠ RESULT_SUCCESS then some (res5, s5) else some (RESULT_SUCCESS, s5)

/-- The stores reachable from a successful `FormatConfig` by successful
`CreateConfigInfoBlk` calls, each issued while `total_entries < 1479`. -/
inductive Reachable : Memory → Prop
  | format (s s1 : State) :
      FormatConfig true true s = some (RESULT_SUCCESS, s1) →
      Reachable s1.cfg_config_file_buffer
  | create (buf buf1 : Memory) (block_id size flags res : Nat) (data : Memory) :
      Reachable buf → total_entries buf < BLOCK_ENTRIES →
      CreateConfigInfoBlk buf block_id size flags data = some (res, buf1) →
      Reachable buf1

/-- The buffer after a `CreateConfigInfoBlk` call (`buf` itself if the call is
undefined). -/
def createdBuffer (buf : Memory) (block_id size flags : Nat) (data : Memory) : Memory :=
  match CreateConfigInfoBlk buf block_id size flags data with
  | some r => r.2
  | none => buf

/-- The buffer of `FormatConfig` after the zero fill and the header store. -/
def headerOnly : Memory := writeU16 zeroFilled 2 0x455C

/-- The buffer of `FormatConfig` after the first default block. -/
def defaults1 : Memory :=
  createdBuffer headerOnly 0x00050005 0x20 0xE (ofBytes STEREO_CAMERA_SETTINGS)

/-- The buffer of `FormatConfig` after the second default block. -/
def defaults2 : Memory :=
  createdBuffer defaults1 0x00090001 0x8 0xE (ofBytes (bytesOfU64 CONSOLE_UNIQUE_ID))

/-- The buffer of `FormatConfig` after the third default block. -/
def defaults3 : Memory :=
  createdBuffer defaults2 0x000F0004 0x4 0x8 (ofBytes (bytesOfU32 CONSOLE_MODEL))

/-- The buffer `FormatConfig` builds: zero fill, header, the four default blocks. -/
def formattedBuffer : Memory :=
  createdBuffer defaults3 0x000A0002 0x1 0xA (ofBytes [toByte CONSOLE_LANGUAGE])

/-- The payload of entry `i` as `GetConfigInfoBlock` reads it: the first `size`
bytes of the field `offset_or_data` of an inline entry, the `size` bytes at
`data_entries_offset + offset_or_data` of an out-of-line one. -/
def payloadOf (buf : Memory) (i : Nat) : List u8 :=
  if (readEntry buf i).size ≤ 4 then bytesAt buf (entryAddr i + 4) (readEntry buf i).size
  else bytesAt buf ((data_entries_offset buf + (readEntry buf i).offset_or_data) % 2 ^ 32)
    (readEntry buf i).size

/-- A store whose header says that all 1479 entry slots are in use (the slots
themselves and the data region are zero, the data region starts at 0x455C). -/
def fullStore : Memory := writeU16 headerOnly 0 1479

/-- The formatted store after a first block with the id 0x00010001. -/
def shadowing1 : Memory := createdBuffer formattedBuffer 0x00010001 2 0xE (ofBytes [1, 2])

/-- The store `shadowing1` after a second block with the same id, size and flags. -/
def shadowing2 : Memory := createdBuffer shadowing1 0x00010001 2 0xE (ofBytes [3, 4])

/-! ## Service bring-up and the service functions on the store -/

/-- The state at the start of the process: the static buffer is zero-initialised;
`file` is the contents of the file "config" of the archive, if there is one. -/
def freshState (file : Option (List u8)) : State := ⟨zeroFilled, file⟩

/-- The constructor `Interface::Interface()`, after the registration of the
function table. `initialized` is what the archive's `Initialize` returns,
`found` tells whether `OpenFile` in read mode returns a file; `deleted` and
`opened` are passed on to `FormatConfig`, whose result code is dropped. -/
def Interface (initialized found deleted opened : Bool) (s : State) : Option State :=
  if !initialized then some s
  else if found then some s
  else
    match FormatConfig deleted opened s with
    | none => none
    | some r => some r.2

/-- The service function `CFG_User::GetConfigInfoBlk2`. `GetPointer` is
`Memory::GetPointer`, `none` being the null pointer, and `memory` is the host
memory its pointers point into. Returns the command buffer and the memory after
the call. -/
def GetConfigInfoBlk2 (GetPointer : Nat → Option Nat) (buf : Memory)
    (cmd_buffer : CommandBuffer) (memory : Memory) : Option (CommandBuffer × Memory) :=
  let size := cmd_buffer 1
  let block_id := cmd_buffer 2
  match GetPointer (cmd_buffer 4) with
  | none => some (setWord cmd_buffer 1 0xFFFFFFFF, memory)
  | some data_pointer =>
    match GetConfigInfoBlock buf block_id size 0x2 (fun i => memory (data_pointer + i)) with
    | none => none
    | some r =>
      some (setWord cmd_buffer 1 r.1,
        fun a => if data_pointer ≤ a then r.2 (a - data_pointer) else memory a)

/-- The lookup as the specification describes it, for comparison with
`GetConfigInfoBlock`: a scan of the first `total_entries` entries only. -/
def lookupCreatedEntries (buf : Memory) (block_id size flag : Nat) (output : Memory) :
    Option (Nat × Memory) :=
  let itr := find_if (entryMatches buf block_id size flag) (total_entries buf) 0
  if itr = total_entries buf then
    some (RESULT_MINUS_ONE, output)
  else if (readEntry buf itr).size ≤ 4 then
    some (RESULT_SUCCESS, memcpy output 0 buf (entryAddr itr + 4) (readEntry buf itr).size)
  else
    let src := (data_entries_offset buf + (readEntry buf itr).offset_or_data) % 2 ^ 32
    if CONFIG_SAVEFILE_SIZE < src + (readEntry buf itr).size then none
    else some (RESULT_SUCCESS, memcpy output 0 buf src (readEntry buf itr).size)

/-- A store that is not formatted in full: the header of `FormatConfig` and one
inline block, no out-of-line block. -/
def inlineOnly : Memory := createdBuffer headerOnly 0x000A0002 1 0xA (ofBytes [1])

/-- The formatted store after a further block with the id 0x000F0004 of the
default console model block. -/
def remodel1 : Memory := createdBuffer formattedBuffer 0x000F0004 4 0x8 (ofBytes [9, 9, 9, 9])

/-- The store `remodel1` after one more block with the same id, size and flags. -/
def remodel2 : Memory := createdBuffer remodel1 0x000F0004 4 0x8 (ofBytes [1, 0, 0, 0])

/-! ## Invariant of the reachable stores -/

/-- What holds of every reachable store: the header fields are in range, every
out-of-line payload lies in the buffer, out-of-line payloads are laid out in
creation order, and the unused entry slots are zero. -/
structure Inv (buf : Memory) : Prop where
  deo : data_entries_offset buf = 0x455C
  te_le : total_entries buf ≤ BLOCK_ENTRIES
  fits : ∀ i, i < total_entries buf → 4 < (readEntry buf i).size →
    0x455C + ((readEntry buf i).offset_or_data + (readEntry buf i).size) ≤ CONFIG_SAVEFILE_SIZE
  mono : ∀ i j, i < j → j < total_entries buf →
    4 < (readEntry buf i).size → 4 < (readEntry buf j).size →
    (readEntry buf i).offset_or_data + (readEntry buf i).size ≤ (readEntry buf j).offset_or_data
  unused : ∀ a, entryAddr (total_entries buf) ≤ a → a < unknownAddr → buf a = 0

/-- The effect of a `CreateConfigInfoBlk` call that turned `buf` into `buf1`. -/
structure CreatePost (buf : Memory) (block_id size flags : Nat) (data : Memory)
    (buf1 : Memory) : Prop where
  te : total_entries buf1 = total_entries buf + 1
  frame : ∀ x, 2 ≤ x →
    (x < entryAddr (total_entries buf) ∨ entryAddr (total_entries buf) + 12 ≤ x) →
    (size ≤ 4 ∨ x < 0x455C + nextOffset buf (total_entries buf) ∨
      0x455C + nextOffset buf (total_entries buf) + size ≤ x) →
    buf1 x = buf x
  entry_id : (readEntry buf1 (total_entries buf)).block_id = block_id % 4294967296
  entry_size : (readEntry buf1 (total_entries buf)).size = size % 65536
  entry_flags : (readEntry buf1 (total_entries buf)).flags = flags % 65536
  entry_off : 4 < size →
    (readEntry buf1 (total_entries buf)).offset_or_data = nextOffset buf (total_entries buf)
  inline : size ≤ 4 → ∀ i, i < size → buf1 (entryAddr (total_entries buf) + 4 + i) = data i
  payload : 4 < size → ∀ i, i < size →
    buf1 (0x455C + nextOffset buf (total_entries buf) + i) = data i

/-! ## Memory lemmas -/

theorem toByte_val (n : Nat) : (toByte n).val = n % 256 := rfl

theorem writeU8_same (m : Memory) (a v : Nat) : writeU8 m a v a = toByte v := by
  simp [writeU8]

theorem writeU8_other (m : Memory) (a v x : Nat) (h : x ≠ a) : writeU8 m a v x = m x := by
  simp [writeU8, h]

theorem writeU16_other (m : Memory) (a v x : Nat) (h : x < a ∨ a + 2 ≤ x) :
    writeU16 m a v x = m x := by
  unfold writeU16
  rw [writeU8_other _ _ _ _ (by omega), writeU8_other _ _ _ _ (by omega)]

theorem writeU32_other (m : Memory) (a v x : Nat) (h : x < a ∨ a + 4 ≤ x) :
    writeU32 m a v x = m x := by
  unfold writeU32
  rw [writeU8_other _ _ _ _ (by omega), writeU8_other _ _ _ _ (by omega),
    writeU8_other _ _ _ _ (by omega), writeU8_other _ _ _ _ (by omega)]

theorem readU16_writeU16 (m : Memory) (a v : Nat) :
    readU16 (writeU16 m a v) a = v % 65536 := by
  unfold readU16 writeU16
  rw [writeU8_other _ _ _ _ (by omega), writeU8_same, writeU8_same, toByte_val, toByte_val]
  omega

theorem readU32_writeU32 (m : Memory) (a v : Nat) :
    readU32 (writeU32 m a v) a = v % 4294967296 := by
  unfold readU32 writeU32
  rw [writeU8_other _ _ _ _ (by omega), writeU8_other _ _ _ _ (by omega),
    writeU8_other _ _ _ _ (by omega), writeU8_same,
    writeU8_other _ _ _ _ (by omega), writeU8_other _ _ _ _ (by omega), writeU8_same,
    writeU8_other _ _ _ _ (by omega), writeU8_same, writeU8_same]
  simp only [toByte_val]
  omega

theorem readU16_lt (m : Memory) (a : Nat) : readU16 m a < 65536 := by
  unfold readU16
  have h0 := (m a).isLt
  have h1 := (m (a + 1)).isLt
  omega

theorem readU32_lt (m : Memory) (a : Nat) : readU32 m a < 4294967296 := by
  unfold readU32
  have h0 := (m a).isLt
  have h1 := (m (a + 1)).isLt
  have h2 := (m (a + 2)).isLt
  have h3 := (m (a + 3)).isLt
  omega

theorem readU16_congr (m m1 : Memory) (a : Nat)
    (h : ∀ x, a ≤ x → x < a + 2 → m x = m1 x) : readU16 m a = readU16 m1 a := by
  unfold readU16
  rw [h a (by omega) (by omega), h (a + 1) (by omega) (by omega)]

theorem readU32_congr (m m1 : Memory) (a : Nat)
    (h : ∀ x, a ≤ x → x < a + 4 → m x = m1 x) : readU32 m a = readU32 m1 a := by
  unfold readU32
  rw [h a (by omega) (by omega), h (a + 1) (by omega) (by omega),
    h (a + 2) (by omega) (by omega), h (a + 3) (by omega) (by omega)]

theorem memcpy_inside (dst src : Memory) (d s n i : Nat) (h : i < n) :
    memcpy dst d src s n (d + i) = src (s + i) := by
  unfold memcpy
  rw [if_pos (by omega)]
  congr 1
  omega

theorem memcpy_other (dst src : Memory) (d s n x : Nat) (h : x < d ∨ d + n ≤ x) :
    memcpy dst d src s n x = dst x := by
  unfold memcpy
  rw [if_neg (by omega)]

/-! ## Entry lemmas -/

theorem entryAddr_eq (i : Nat) : entryAddr i = 4 + 12 * i := rfl

theorem readEntry_congr (m m1 : Memory) (i : Nat)
    (h : ∀ x, entryAddr i ≤ x → x < entryAddr i + 12 → m x = m1 x) :
    readEntry m i = readEntry m1 i := by
  unfold readEntry
  rw [readU32_congr m m1 (entryAddr i) (fun x h1 h2 => h x (by omega) (by omega)),
    readU32_congr m m1 (entryAddr i + 4) (fun x h1 h2 => h x (by omega) (by omega)),
    readU16_congr m m1 (entryAddr i + 8) (fun x h1 h2 => h x (by omega) (by omega)),
    readU16_congr m m1 (entryAddr i + 10) (fun x h1 h2 => h x (by omega) (by omega))]

theorem writeEntry_other (m : Memory) (i x : Nat) (e : SaveConfigBlockEntry)
    (h : x < entryAddr i ∨ entryAddr i + 12 ≤ x) : writeEntry m i e x = m x := by
  unfold writeEntry
  rw [writeU16_other _ _ _ _ (by omega), writeU16_other _ _ _ _ (by omega),
    writeU32_other _ _ _ _ (by omega), writeU32_other _ _ _ _ (by omega)]

theorem readEntry_writeEntry (m : Memory) (i : Nat) (e : SaveConfigBlockEntry) :
    readEntry (writeEntry m i e) i =
      ⟨e.block_id % 4294967296, e.offset_or_data % 4294967296, e.size % 65536,
        e.flags % 65536⟩ := by
  unfold readEntry writeEntry
  congr 1
  · rw [readU32_congr _ (writeU32 m (entryAddr i) e.block_id) _ (fun x h1 h2 => by
      rw [writeU16_other _ _ _ _ (by omega), writeU16_other _ _ _ _ (by omega),
        writeU32_other _ _ _ _ (by omega)]), readU32_writeU32]
  · rw [readU32_congr _ (writeU32 (writeU32 m (entryAddr i) e.block_id) (entryAddr i + 4)
      e.offset_or_data) _ (fun x h1 h2 => by
      rw [writeU16_other _ _ _ _ (by omega), writeU16_other _ _ _ _ (by omega)]),
      readU32_writeU32]
  · rw [readU16_congr _ (writeU16 (writeU32 (writeU32 m (entryAddr i) e.block_id)
      (entryAddr i + 4) e.offset_or_data) (entryAddr i + 8) e.size) _ (fun x h1 h2 => by
      rw [writeU16_other _ _ _ _ (by omega)]), readU16_writeU16]
  · rw [readU16_writeU16]

/-! ## The effect of `CreateConfigInfoBlk` -/

theorem total_entries_congr (m m1 : Memory) (h : ∀ x, x < 2 → m x = m1 x) :
    total_entries m = total_entries m1 :=
  readU16_congr m m1 0 (fun x _ h2 => h x (by omega))

theorem data_entries_offset_congr (m m1 : Memory) (h : ∀ x, 2 ≤ x → x < 4 → m x = m1 x) :
    data_entries_offset m = data_entries_offset m1 :=
  readU16_congr m m1 2 (fun x h1 h2 => h x h1 (by omega))

theorem nextOffset_congr (m m1 : Memory) (k : Nat)
    (h : ∀ j, j < k → readEntry m j = readEntry m1 j) : nextOffset m k = nextOffset m1 k := by
  induction k with
  | zero => rfl
  | succ k ih =>
    unfold nextOffset
    rw [h k (by omega), ih (fun j hj => h j (by omega))]

theorem readEntry_writeEntry_other (m : Memory) (i j : Nat) (e : SaveConfigBlockEntry)
    (h : j ≠ i) : readEntry (writeEntry m i e) j = readEntry m j := by
  apply readEntry_congr
  intro x h1 h2
  apply writeEntry_other
  rw [entryAddr_eq] at *
  omega

theorem entry_in_buffer (buf : Memory) (hte : total_entries buf < BLOCK_ENTRIES) :
    ¬ CONFIG_SAVEFILE_SIZE < entryAddr (total_entries buf) + ENTRY_SIZE := by
  simp only [BLOCK_ENTRIES] at hte
  simp only [CONFIG_SAVEFILE_SIZE, ENTRY_SIZE, entryAddr_eq]
  omega

theorem total_entries_writeEntry (buf : Memory) (i : Nat) (e : SaveConfigBlockEntry) :
    total_entries (writeEntry buf i e) = total_entries buf :=
  total_entries_congr _ _ (fun x hx => writeEntry_other _ _ _ _ (by rw [entryAddr_eq]; omega))

theorem create_inline_eq (buf : Memory) (block_id size flags : Nat) (data : Memory)
    (hte : total_entries buf < BLOCK_ENTRIES) (hs : size ≤ 4) :
    CreateConfigInfoBlk buf block_id size flags data =
      some (RESULT_SUCCESS,
        writeU16 (memcpy (writeEntry buf (total_entries buf) ⟨block_id, 0, size, flags⟩)
          (entryAddr (total_entries buf) + 4) data 0 size) 0 (total_entries buf + 1)) := by
  have h1 := total_entries_writeEntry buf (total_entries buf) ⟨block_id, 0, size, flags⟩
  have h2 : total_entries (memcpy (writeEntry buf (total_entries buf)
      ⟨block_id, 0, size, flags⟩) (entryAddr (total_entries buf) + 4) data 0 size)
      = total_entries buf :=
    (total_entries_congr _ _ (fun x hx => memcpy_other _ _ _ _ _ _ (by
      rw [entryAddr_eq]; omega))).trans h1
  have hs1 : ¬ 4 < size := by omega
  unfold CreateConfigInfoBlk
  rw [if_neg (entry_in_buffer buf hte)]
  simp only [h1]
  rw [if_neg hs1]
  simp only [h2]

theorem create_outline_eq (buf : Memory) (block_id size flags : Nat) (data : Memory)
    (hte : total_entries buf < BLOCK_ENTRIES) (hdeo : data_entries_offset buf = 0x455C)
    (hs : 4 < size)
    (hfit : 0x455C + nextOffset buf (total_entries buf) + size ≤ CONFIG_SAVEFILE_SIZE) :
    CreateConfigInfoBlk buf block_id size flags data =
      some (RESULT_SUCCESS,
        writeU16 (memcpy (writeU32 (writeEntry buf (total_entries buf)
          ⟨block_id, 0, size, flags⟩) (entryAddr (total_entries buf) + 4)
          (nextOffset buf (total_entries buf)))
          (0x455C + nextOffset buf (total_entries buf)) data 0 size) 0
          (total_entries buf + 1)) := by
  have h1 := total_entries_writeEntry buf (total_entries buf) ⟨block_id, 0, size, flags⟩
  have hn : nextOffset (writeEntry buf (total_entries buf) ⟨block_id, 0, size, flags⟩)
      (total_entries buf) = nextOffset buf (total_entries buf) :=
    nextOffset_congr _ _ _ (fun j hj => readEntry_writeEntry_other _ _ _ _ (by omega))
  have hd : data_entries_offset (writeU32 (writeEntry buf (total_entries buf)
      ⟨block_id, 0, size, flags⟩) (entryAddr (total_entries buf) + 4)
      (nextOffset buf (total_entries buf))) = 0x455C := by
    refine Eq.trans (data_entries_offset_congr _ buf ?_) hdeo
    intro x hx1 hx2
    rw [writeU32_other _ _ _ _ (by rw [entryAddr_eq]; omega),
      writeEntry_other _ _ _ _ (by rw [entryAddr_eq]; omega)]
  have h3 : total_entries (memcpy (writeU32 (writeEntry buf (total_entries buf)
      ⟨block_id, 0, size, flags⟩) (entryAddr (total_entries buf) + 4)
      (nextOffset buf (total_entries buf)))
      (0x455C + nextOffset buf (total_entries buf)) data 0 size) = total_entries buf := by
    refine Eq.trans (total_entries_congr _ (writeEntry buf (total_entries buf)
      ⟨block_id, 0, size, flags⟩) ?_) h1
    intro x hx
    rw [memcpy_other _ _ _ _ _ _ (by omega),
      writeU32_other _ _ _ _ (by rw [entryAddr_eq]; omega)]
  simp only [CONFIG_SAVEFILE_SIZE] at hfit
  have hm : (0x455C + nextOffset buf (total_entries buf)) % 2 ^ 32
      = 0x455C + nextOffset buf (total_entries buf) := Nat.mod_eq_of_lt (by omega)
  have hc : ¬ CONFIG_SAVEFILE_SIZE < 0x455C + nextOffset buf (total_entries buf) + size := by
    simp only [CONFIG_SAVEFILE_SIZE]
    omega
  unfold CreateConfigInfoBlk
  rw [if_neg (entry_in_buffer buf hte)]
  simp only [h1, hn, hd]
  rw [if_pos hs, hm, if_neg hc]
  simp only [h3]

theorem createPost_inline (buf : Memory) (block_id size flags : Nat) (data : Memory)
    (hte : total_entries buf < BLOCK_ENTRIES) (hs : size ≤ 4) :
    CreatePost buf block_id size flags data
      (writeU16 (memcpy (writeEntry buf (total_entries buf) ⟨block_id, 0, size, flags⟩)
        (entryAddr (total_entries buf) + 4) data 0 size) 0 (total_entries buf + 1)) := by
  simp only [BLOCK_ENTRIES] at hte
  have key : ∀ x, entryAddr (total_entries buf) ≤ x → x < entryAddr (total_entries buf) + 12 →
      (x < entryAddr (total_entries buf) + 4 ∨ entryAddr (total_entries buf) + 4 + size ≤ x) →
      writeU16 (memcpy (writeEntry buf (total_entries buf) ⟨block_id, 0, size, flags⟩)
        (entryAddr (total_entries buf) + 4) data 0 size) 0 (total_entries buf + 1) x
      = writeEntry buf (total_entries buf) ⟨block_id, 0, size, flags⟩ x := by
    intro x h1 h2 h3
    rw [writeU16_other _ _ _ _ (by rw [entryAddr_eq] at h1; omega),
      memcpy_other _ _ _ _ _ _ (by omega)]
  have hre := readEntry_writeEntry buf (total_entries buf) ⟨block_id, 0, size, flags⟩
  constructor
  · show readU16 _ 0 = _
    rw [readU16_writeU16]
    omega
  · intro x hx1 hx2 _
    rw [writeU16_other _ _ _ _ (by omega), memcpy_other _ _ _ _ _ _ (by omega),
      writeEntry_other _ _ _ _ hx2]
  · show readU32 _ (entryAddr (total_entries buf)) = _
    rw [readU32_congr _ _ _ (fun x h1 h2 => key x (by omega) (by omega) (by omega))]
    exact congrArg SaveConfigBlockEntry.block_id hre
  · show readU16 _ (entryAddr (total_entries buf) + 8) = _
    rw [readU16_congr _ _ _ (fun x h1 h2 => key x (by omega) (by omega) (by omega))]
    exact congrArg SaveConfigBlockEntry.size hre
  · show readU16 _ (entryAddr (total_entries buf) + 10) = _
    rw [readU16_congr _ _ _ (fun x h1 h2 => key x (by omega) (by omega) (by omega))]
    exact congrArg SaveConfigBlockEntry.flags hre
  · intro h
    omega
  · intro _ i hi
    rw [writeU16_other _ _ _ _ (by rw [entryAddr_eq]; omega), memcpy_inside _ _ _ _ _ _ hi,
      Nat.zero_add]
  · intro h
    omega

theorem nextOffset_lt (buf : Memory) (k : Nat) : nextOffset buf k < 4294967296 := by
  induction k with
  | zero => simp [nextOffset]
  | succ k ih =>
    unfold nextOffset
    split
    · exact ih
    · exact Nat.mod_lt _ (by norm_num)

theorem createPost_outline (buf : Memory) (block_id size flags : Nat) (data : Memory)
    (hte : total_entries buf < BLOCK_ENTRIES) (hs : 4 < size) :
    CreatePost buf block_id size flags data
      (writeU16 (memcpy (writeU32 (writeEntry buf (total_entries buf)
          ⟨block_id, 0, size, flags⟩) (entryAddr (total_entries buf) + 4)
          (nextOffset buf (total_entries buf)))
          (0x455C + nextOffset buf (total_entries buf)) data 0 size) 0
          (total_entries buf + 1)) := by
  simp only [BLOCK_ENTRIES] at hte
  have key : ∀ x, entryAddr (total_entries buf) ≤ x → x < entryAddr (total_entries buf) + 12 →
      writeU16 (memcpy (writeU32 (writeEntry buf (total_entries buf)
          ⟨block_id, 0, size, flags⟩) (entryAddr (total_entries buf) + 4)
          (nextOffset buf (total_entries buf)))
          (0x455C + nextOffset buf (total_entries buf)) data 0 size) 0
          (total_entries buf + 1) x
      = writeU32 (writeEntry buf (total_entries buf) ⟨block_id, 0, size, flags⟩)
          (entryAddr (total_entries buf) + 4) (nextOffset buf (total_entries buf)) x := by
    intro x h1 h2
    rw [writeU16_other _ _ _ _ (by rw [entryAddr_eq] at h1; omega),
      memcpy_other _ _ _ _ _ _ (by rw [entryAddr_eq] at h2; omega)]
  have hre := readEntry_writeEntry buf (total_entries buf) ⟨block_id, 0, size, flags⟩
  constructor
  · show readU16 _ 0 = _
    rw [readU16_writeU16]
    omega
  · intro x hx1 hx2 hx3
    rw [writeU16_other _ _ _ _ (by omega), memcpy_other _ _ _ _ _ _ (by omega),
      writeU32_other _ _ _ _ (by omega), writeEntry_other _ _ _ _ hx2]
  · show readU32 _ (entryAddr (total_entries buf)) = _
    rw [readU32_congr _ _ _ (fun x h1 h2 => (key x (by omega) (by omega)).trans
      (writeU32_other _ _ _ _ (by omega)))]
    exact congrArg SaveConfigBlockEntry.block_id hre
  · show readU16 _ (entryAddr (total_entries buf) + 8) = _
    rw [readU16_congr _ _ _ (fun x h1 h2 => (key x (by omega) (by omega)).trans
      (writeU32_other _ _ _ _ (by omega)))]
    exact congrArg SaveConfigBlockEntry.size hre
  · show readU16 _ (entryAddr (total_entries buf) + 10) = _
    rw [readU16_congr _ _ _ (fun x h1 h2 => (key x (by omega) (by omega)).trans
      (writeU32_other _ _ _ _ (by omega)))]
    exact congrArg SaveConfigBlockEntry.flags hre
  · intro _
    show readU32 _ (entryAddr (total_entries buf) + 4) = _
    rw [readU32_congr _ _ _ (fun x h1 h2 => key x (by omega) (by omega)), readU32_writeU32]
    exact Nat.mod_eq_of_lt (nextOffset_lt _ _)
  · intro h
    omega
  · intro _ i hi
    rw [writeU16_other _ _ _ _ (by omega), memcpy_inside _ _ _ _ _ _ hi, Nat.zero_add]

/-- A `CreateConfigInfoBlk` call issued below the capacity, on a store whose data
region starts at 0x455C and with a payload that fits in the buffer, succeeds
and has the effect `CreatePost`. -/
theorem create_post (buf : Memory) (block_id size flags : Nat) (data : Memory)
    (hte : total_entries buf < BLOCK_ENTRIES) (hdeo : data_entries_offset buf = 0x455C)
    (hfit : 4 < size →
      0x455C + nextOffset buf (total_entries buf) + size ≤ CONFIG_SAVEFILE_SIZE) :
    ∃ buf1, CreateConfigInfoBlk buf block_id size flags data = some (RESULT_SUCCESS, buf1) ∧
      CreatePost buf block_id size flags data buf1 := by
  by_cases hs : 4 < size
  · exact ⟨_, create_outline_eq buf block_id size flags data hte hdeo hs (hfit hs),
      createPost_outline buf block_id size flags data hte hs⟩
  · exact ⟨_, create_inline_eq buf block_id size flags data hte (by omega),
      createPost_inline buf block_id size flags data hte (by omega)⟩

theorem create_eq_created (buf : Memory) (block_id size flags : Nat) (data : Memory)
    (hte : total_entries buf < BLOCK_ENTRIES) (hdeo : data_entries_offset buf = 0x455C)
    (hfit : 4 < size →
      0x455C + nextOffset buf (total_entries buf) + size ≤ CONFIG_SAVEFILE_SIZE) :
    CreateConfigInfoBlk buf block_id size flags data =
      some (RESULT_SUCCESS, createdBuffer buf block_id size flags data) := by
  obtain ⟨buf1, h1, -⟩ := create_post buf block_id size flags data hte hdeo hfit
  simp only [createdBuffer, h1]

theorem createPost_deo (buf buf1 : Memory) (block_id size flags : Nat) (data : Memory)
    (hte : total_entries buf < BLOCK_ENTRIES)
    (hp : CreatePost buf block_id size flags data buf1) :
    data_entries_offset buf1 = data_entries_offset buf := by
  simp only [BLOCK_ENTRIES] at hte
  apply data_entries_offset_congr
  intro x h1 h2
  exact hp.frame x h1 (by rw [entryAddr_eq]; omega) (by omega)

theorem createPost_entry_lt (buf buf1 : Memory) (block_id size flags : Nat) (data : Memory)
    (hte : total_entries buf < BLOCK_ENTRIES)
    (hp : CreatePost buf block_id size flags data buf1) (j : Nat)
    (hj : j < total_entries buf) : readEntry buf1 j = readEntry buf j := by
  simp only [BLOCK_ENTRIES] at hte
  apply readEntry_congr
  intro x h1 h2
  rw [entryAddr_eq] at h1 h2
  exact hp.frame x (by omega) (by rw [entryAddr_eq]; omega) (by omega)

/-- The value the search loop computes, on a store whose out-of-line payloads
lie in the buffer: zero if there is no out-of-line entry below `k`, otherwise
the end of the payload of the last one. -/
theorem nextOffset_spec (buf : Memory) (k : Nat)
    (hfits : ∀ i, i < k → 4 < (readEntry buf i).size →
      0x455C + ((readEntry buf i).offset_or_data + (readEntry buf i).size)
        ≤ CONFIG_SAVEFILE_SIZE) :
    ((∀ i, i < k → (readEntry buf i).size ≤ 4) ∧ nextOffset buf k = 0) ∨
    (∃ j, j < k ∧ 4 < (readEntry buf j).size ∧
      (∀ i, j < i → i < k → (readEntry buf i).size ≤ 4) ∧
      nextOffset buf k = (readEntry buf j).offset_or_data + (readEntry buf j).size) := by
  induction k with
  | zero => exact Or.inl ⟨fun i hi => absurd hi (by omega), rfl⟩
  | succ k ih =>
    unfold nextOffset
    by_cases hk : (readEntry buf k).size ≤ 4
    · rw [if_pos hk]
      rcases ih (fun i hi => hfits i (by omega)) with ⟨h1, h2⟩ | ⟨j, hj, hj4, hj1, hj2⟩
      · left
        refine ⟨fun i hi => ?_, h2⟩
        rcases Nat.lt_succ_iff_lt_or_eq.mp hi with h | h
        · exact h1 i h
        · rw [h]; exact hk
      · right
        refine ⟨j, by omega, hj4, fun i hi1 hi2 => ?_, hj2⟩
        rcases Nat.lt_succ_iff_lt_or_eq.mp hi2 with h | h
        · exact hj1 i hi1 h
        · rw [h]; exact hk
    · rw [if_neg hk]
      right
      have hf := hfits k (by omega) (by omega)
      simp only [CONFIG_SAVEFILE_SIZE] at hf
      refine ⟨k, by omega, by omega, fun i hi1 hi2 => absurd hi1 (by omega), ?_⟩
      exact Nat.mod_eq_of_lt (by omega)

theorem nextOffset_le (buf : Memory) (h : Inv buf) :
    0x455C + nextOffset buf (total_entries buf) ≤ CONFIG_SAVEFILE_SIZE := by
  rcases nextOffset_spec buf (total_entries buf) h.fits with ⟨-, h2⟩ | ⟨j, hj, hj4, -, hj2⟩
  · rw [h2]; simp [CONFIG_SAVEFILE_SIZE]
  · rw [hj2]; exact h.fits j hj hj4

/-- A defined `CreateConfigInfoBlk` call on a store satisfying the invariant, below
the capacity, returns success and has the effect `CreatePost`; the payload of an
out-of-line block lies in the buffer. -/
theorem create_inv_post (buf buf1 : Memory) (block_id size flags res : Nat) (data : Memory)
    (hinv : Inv buf) (hte : total_entries buf < BLOCK_ENTRIES)
    (h : CreateConfigInfoBlk buf block_id size flags data = some (res, buf1)) :
    res = RESULT_SUCCESS ∧ CreatePost buf block_id size flags data buf1 ∧
      (4 < size →
        0x455C + nextOffset buf (total_entries buf) + size ≤ CONFIG_SAVEFILE_SIZE) := by
  have hfit : 4 < size →
      0x455C + nextOffset buf (total_entries buf) + size ≤ CONFIG_SAVEFILE_SIZE := by
    intro hs
    by_contra hc
    have hle := nextOffset_le buf hinv
    have h1 := total_entries_writeEntry buf (total_entries buf) ⟨block_id, 0, size, flags⟩
    have hn : nextOffset (writeEntry buf (total_entries buf) ⟨block_id, 0, size, flags⟩)
        (total_entries buf) = nextOffset buf (total_entries buf) :=
      nextOffset_congr _ _ _ (fun j hj => readEntry_writeEntry_other _ _ _ _ (by omega))
    have hd : data_entries_offset (writeU32 (writeEntry buf (total_entries buf)
        ⟨block_id, 0, size, flags⟩) (entryAddr (total_entries buf) + 4)
        (nextOffset buf (total_entries buf))) = 0x455C := by
      refine Eq.trans (data_entries_offset_congr _ buf ?_) hinv.deo
      intro x hx1 hx2
      rw [writeU32_other _ _ _ _ (by rw [entryAddr_eq]; omega),
        writeEntry_other _ _ _ _ (by rw [entryAddr_eq]; omega)]
    simp only [CONFIG_SAVEFILE_SIZE] at hle hc
    have hm : (0x455C + nextOffset buf (total_entries buf)) % 2 ^ 32
        = 0x455C + nextOffset buf (total_entries buf) := Nat.mod_eq_of_lt (by omega)
    have hc1 : CONFIG_SAVEFILE_SIZE < 0x455C + nextOffset buf (total_entries buf) + size := by
      simp only [CONFIG_SAVEFILE_SIZE]
      omega
    unfold CreateConfigInfoBlk at h
    rw [if_neg (entry_in_buffer buf hte)] at h
    simp only [h1, hn, hd] at h
    rw [if_pos hs, hm, if_pos hc1] at h
    exact absurd h (by simp)
  obtain ⟨buf2, h2, hp⟩ := create_post buf block_id size flags data hte hinv.deo hfit
  rw [h2] at h
  cases h
  exact ⟨rfl, hp, hfit⟩

/-- The invariant is preserved by `CreateConfigInfoBlk`. -/
theorem createPost_inv (buf buf1 : Memory) (block_id size flags : Nat) (data : Memory)
    (hinv : Inv buf) (hte : total_entries buf < BLOCK_ENTRIES)
    (hp : CreatePost buf block_id size flags data buf1)
    (hfit : 4 < size →
      0x455C + nextOffset buf (total_entries buf) + size ≤ CONFIG_SAVEFILE_SIZE) :
    Inv buf1 := by
  have hold := createPost_entry_lt buf buf1 block_id size flags data hte hp
  have hmod : size % 65536 ≤ size := Nat.mod_le _ _
  constructor
  · rw [createPost_deo buf buf1 block_id size flags data hte hp, hinv.deo]
  · rw [hp.te]; exact hte
  · intro i hi h4
    rw [hp.te] at hi
    rcases Nat.lt_succ_iff_lt_or_eq.mp hi with h | h
    · rw [hold i h] at h4 ⊢
      exact hinv.fits i h h4
    · subst h
      rw [hp.entry_size] at h4 ⊢
      rw [hp.entry_off (by omega)]
      have := hfit (by omega)
      omega
  · intro i j hij hj hi4 hj4
    rw [hp.te] at hj
    rcases Nat.lt_succ_iff_lt_or_eq.mp hj with h | h
    · rw [hold i (by omega)] at hi4 ⊢
      rw [hold j h] at hj4 ⊢
      exact hinv.mono i j hij h hi4 hj4
    · subst h
      rw [hold i hij] at hi4 ⊢
      rw [hp.entry_size] at hj4
      rw [hp.entry_off (by omega)]
      rcases nextOffset_spec buf (total_entries buf) hinv.fits with
        ⟨h1, -⟩ | ⟨k, hk, hk4, hk1, hk2⟩
      · have := h1 i hij
        omega
      · rw [hk2]
        rcases Nat.lt_trichotomy i k with h | h | h
        · have := hinv.mono i k h hk hi4 hk4
          omega
        · rw [h]
        · have := hk1 i h hij
          omega
  · intro a h1 h2
    rw [hp.te] at h1
    simp only [unknownAddr, BLOCK_ENTRIES, entryAddr_eq, ENTRY_SIZE] at h1 h2
    rw [hp.frame a (by omega) (by rw [entryAddr_eq]; omega) (by omega)]
    exact hinv.unused a (by rw [entryAddr_eq]; omega)
      (by simp only [unknownAddr, BLOCK_ENTRIES, entryAddr_eq]; omega)

theorem inv_headerOnly : Inv headerOnly := by
  have hte : total_entries headerOnly = 0 := by decide
  constructor
  · decide
  · rw [hte]; decide
  · intro i hi; rw [hte] at hi; omega
  · intro i j _ hj; rw [hte] at hj; omega
  · intro a h1 _
    rw [hte, entryAddr_eq] at h1
    show writeU16 zeroFilled 2 0x455C a = 0
    rw [writeU16_other _ _ _ _ (by omega)]
    rfl

/-! ## `FormatConfig` and the reachable stores -/

theorem create_defaults1 :
    CreateConfigInfoBlk headerOnly 0x00050005 0x20 0xE (ofBytes STEREO_CAMERA_SETTINGS) =
      some (RESULT_SUCCESS, defaults1) :=
  create_eq_created headerOnly _ _ _ _ (by decide) (by decide) (fun _ => by decide)

theorem create_defaults2 :
    CreateConfigInfoBlk defaults1 0x00090001 0x8 0xE (ofBytes (bytesOfU64 CONSOLE_UNIQUE_ID)) =
      some (RESULT_SUCCESS, defaults2) :=
  create_eq_created defaults1 _ _ _ _ (by decide) (by decide) (fun _ => by decide)

theorem create_defaults3 :
    CreateConfigInfoBlk defaults2 0x000F0004 0x4 0x8 (ofBytes (bytesOfU32 CONSOLE_MODEL)) =
      some (RESULT_SUCCESS, defaults3) :=
  create_eq_created defaults2 _ _ _ _ (by decide) (by decide) (fun h => absurd h (by decide))

theorem create_formatted :
    CreateConfigInfoBlk defaults3 0x000A0002 0x1 0xA (ofBytes [toByte CONSOLE_LANGUAGE]) =
      some (RESULT_SUCCESS, formattedBuffer) :=
  create_eq_created defaults3 _ _ _ _ (by decide) (by decide) (fun h => absurd h (by decide))

/-- A `FormatConfig` whose file deletion and file open succeed returns success,
leaves `formattedBuffer` in memory and writes its 0x8000 bytes to the file. -/
theorem formatConfig_eq (s : State) :
    FormatConfig true true s = some (RESULT_SUCCESS,
      ⟨formattedBuffer, some (bytesAt formattedBuffer 0 CONFIG_SAVEFILE_SIZE)⟩) := by
  have e1 := create_defaults1
  have e2 := create_defaults2
  have e3 := create_defaults3
  have e4 := create_formatted
  unfold headerOnly at e1
  simp [FormatConfig, DeleteConfigNANDSaveFile, UpdateConfigNANDSavegame, e1, e2, e3, e4]

theorem inv_formatted : Inv formattedBuffer := by
  have h0 := inv_headerOnly
  obtain ⟨-, p1, f1⟩ := create_inv_post _ _ _ _ _ _ _ h0 (by decide) create_defaults1
  have h1 := createPost_inv _ _ _ _ _ _ h0 (by decide) p1 f1
  obtain ⟨-, p2, f2⟩ := create_inv_post _ _ _ _ _ _ _ h1 (by decide) create_defaults2
  have h2 := createPost_inv _ _ _ _ _ _ h1 (by decide) p2 f2
  obtain ⟨-, p3, f3⟩ := create_inv_post _ _ _ _ _ _ _ h2 (by decide) create_defaults3
  have h3 := createPost_inv _ _ _ _ _ _ h2 (by decide) p3 f3
  obtain ⟨-, p4, f4⟩ := create_inv_post _ _ _ _ _ _ _ h3 (by decide) create_formatted
  exact createPost_inv _ _ _ _ _ _ h3 (by decide) p4 f4

/-- Every reachable store satisfies the invariant. -/
theorem reachable_inv (buf : Memory) (h : Reachable buf) : Inv buf := by
  induction h with
  | format s s1 hf =>
    rw [formatConfig_eq] at hf
    cases hf
    exact inv_formatted
  | create buf buf1 block_id size flags res data _ hte hc ih =>
    obtain ⟨-, hp, hfit⟩ := create_inv_post _ _ _ _ _ _ _ ih hte hc
    exact createPost_inv _ _ _ _ _ _ ih hte hp hfit

theorem reachable_formatted : Reachable formattedBuffer :=
  Reachable.format ⟨zeroFilled, none⟩ _ (formatConfig_eq _)

/-! ## `std::find_if` and `GetConfigInfoBlock` -/

theorem find_if_bounds (p : Nat → Bool) (n first : Nat) :
    first ≤ find_if p n first ∧ find_if p n first ≤ first + n := by
  induction n generalizing first with
  | zero => simp [find_if]
  | succ n ih =>
    unfold find_if
    split
    · omega
    · have := ih (first + 1)
      omega

theorem find_if_before (p : Nat → Bool) (n first j : Nat) (h1 : first ≤ j)
    (h2 : j < find_if p n first) : p j = false := by
  induction n generalizing first with
  | zero => simp only [find_if] at h2; omega
  | succ n ih =>
    unfold find_if at h2
    by_cases hp : p first = true
    · rw [if_pos hp] at h2; omega
    · rw [if_neg hp] at h2
      rcases Nat.eq_or_lt_of_le h1 with h | h
      · rw [← h]; simpa using hp
      · exact ih (first + 1) h h2

theorem find_if_at (p : Nat → Bool) (n first : Nat) (h : find_if p n first < first + n) :
    p (find_if p n first) = true := by
  induction n generalizing first with
  | zero => simp only [find_if] at h; omega
  | succ n ih =>
    unfold find_if at h ⊢
    by_cases hp : p first = true
    · rw [if_pos hp]; exact hp
    · rw [if_neg hp] at h ⊢
      exact ih (first + 1) (by omega)

/-- The index `std::find_if` returns, when `i` is the first index satisfying `p`. -/
theorem find_if_eq (p : Nat → Bool) (n first i : Nat) (h1 : first ≤ i) (h2 : i < first + n)
    (hp : p i = true) (hb : ∀ j, first ≤ j → j < i → p j = false) :
    find_if p n first = i := by
  have hle : find_if p n first ≤ i := by
    by_contra hc
    have := find_if_before p n first i h1 (by omega)
    rw [hp] at this
    exact absurd this (by simp)
  rcases Nat.eq_or_lt_of_le hle with h | h
  · exact h
  · have h3 := find_if_at p n first (by omega)
    have h4 := hb _ (find_if_bounds p n first).1 h
    rw [h3] at h4
    exact absurd h4 (by simp)

theorem find_if_end (p : Nat → Bool) (n first : Nat)
    (hb : ∀ j, first ≤ j → j < first + n → p j = false) : find_if p n first = first + n := by
  have hb1 := find_if_bounds p n first
  rcases Nat.eq_or_lt_of_le hb1.2 with h | h
  · exact h
  · have h3 := find_if_at p n first h
    rw [hb _ hb1.1 h] at h3
    exact absurd h3 (by simp)

theorem bytesAt_length (m : Memory) (a n : Nat) : (bytesAt m a n).length = n := by
  simp [bytesAt]

theorem bytesAt_congr (m m1 : Memory) (a b n : Nat) (h : ∀ i, i < n → m (a + i) = m1 (b + i)) :
    bytesAt m a n = bytesAt m1 b n := by
  unfold bytesAt
  apply List.map_congr_left
  intro i hi
  exact h i (List.mem_range.mp hi)

theorem bytesAt_ofBytes (data : List u8) : bytesAt (ofBytes data) 0 data.length = data := by
  apply List.ext_getElem
  · simp [bytesAt]
  · intro i h1 h2
    simp [bytesAt, ofBytes, List.getD_eq_getElem?_getD, List.getElem?_eq_getElem h2]

theorem bytesAt_memcpy (output src : Memory) (s n : Nat) :
    bytesAt (memcpy output 0 src s n) 0 n = bytesAt src s n :=
  bytesAt_congr _ _ _ _ _ (fun i hi => memcpy_inside output src 0 s n i hi)

/-- The result of `GetConfigInfoBlock` when `std::find_if` stops at entry `i`. -/
theorem lookup_found (buf : Memory) (block_id size flag i : Nat) (output : Memory)
    (hi : i < BLOCK_ENTRIES)
    (hf : find_if (entryMatches buf block_id size flag) BLOCK_ENTRIES 0 = i)
    (hfit : 4 < (readEntry buf i).size →
      (data_entries_offset buf + (readEntry buf i).offset_or_data) % 2 ^ 32 +
        (readEntry buf i).size ≤ CONFIG_SAVEFILE_SIZE) :
    ∃ out1, GetConfigInfoBlock buf block_id size flag output = some (RESULT_SUCCESS, out1) ∧
      bytesAt out1 0 (readEntry buf i).size = payloadOf buf i ∧
      ∀ x, (readEntry buf i).size ≤ x → out1 x = output x := by
  have hne : ¬ i = BLOCK_ENTRIES := by omega
  unfold GetConfigInfoBlock payloadOf
  simp only [hf]
  rw [if_neg hne]
  by_cases hs : (readEntry buf i).size ≤ 4
  · rw [if_pos hs, if_pos hs]
    exact ⟨_, rfl, bytesAt_memcpy _ _ _ _, fun x hx => memcpy_other _ _ _ _ _ _ (by omega)⟩
  · rw [if_neg hs, if_neg hs, if_neg (by have := hfit (by omega); omega)]
    exact ⟨_, rfl, bytesAt_memcpy _ _ _ _, fun x hx => memcpy_other _ _ _ _ _ _ (by omega)⟩

/-- The result of `GetConfigInfoBlock` when no entry slot matches. -/
theorem lookup_not_found (buf : Memory) (block_id size flag : Nat) (output : Memory)
    (h : ∀ j, j < BLOCK_ENTRIES → entryMatches buf block_id size flag j = false) :
    GetConfigInfoBlock buf block_id size flag output = some (RESULT_MINUS_ONE, output) := by
  have hf := find_if_end (entryMatches buf block_id size flag) BLOCK_ENTRIES 0
    (fun j _ hj => h j (by omega))
  rw [Nat.zero_add] at hf
  unfold GetConfigInfoBlock
  simp only [hf]
  exact if_pos trivial

theorem entryMatches_iff (buf : Memory) (block_id size flag i : Nat) :
    entryMatches buf block_id size flag i = true ↔
      (readEntry buf i).block_id = block_id ∧ (readEntry buf i).size = size ∧
        (readEntry buf i).flags &&& flag ≠ 0 := by
  simp [entryMatches, and_assoc]

theorem entryMatches_false_of_id (buf : Memory) (block_id size flag i : Nat)
    (h : (readEntry buf i).block_id ≠ block_id) :
    entryMatches buf block_id size flag i = false := by
  cases hm : entryMatches buf block_id size flag i with
  | false => rfl
  | true => exact absurd ((entryMatches_iff _ _ _ _ _).mp hm).1 h

/-- The payload `GetConfigInfoBlock` reads for the entry a `CreateConfigInfoBlk`
call created is the data of that call. -/
theorem payloadOf_created (buf buf1 : Memory) (block_id size flags : Nat) (data : Memory)
    (hinv : Inv buf) (hte : total_entries buf < BLOCK_ENTRIES)
    (hp : CreatePost buf block_id size flags data buf1)
    (hfit : 4 < size →
      0x455C + nextOffset buf (total_entries buf) + size ≤ CONFIG_SAVEFILE_SIZE) :
    (readEntry buf1 (total_entries buf)).size = size ∧
    payloadOf buf1 (total_entries buf) = bytesAt data 0 size ∧
    (4 < size → (data_entries_offset buf1 +
      (readEntry buf1 (total_entries buf)).offset_or_data) % 2 ^ 32 =
        0x455C + nextOffset buf (total_entries buf)) := by
  have hsz : size % 65536 = size := by
    apply Nat.mod_eq_of_lt
    by_cases hs : 4 < size
    · have := hfit hs
      simp only [CONFIG_SAVEFILE_SIZE] at this
      omega
    · omega
  have hsize : (readEntry buf1 (total_entries buf)).size = size := by
    rw [hp.entry_size, hsz]
  have hdeo : data_entries_offset buf1 = 0x455C := by
    rw [createPost_deo buf buf1 block_id size flags data hte hp, hinv.deo]
  have hsrc : 4 < size → (data_entries_offset buf1 +
      (readEntry buf1 (total_entries buf)).offset_or_data) % 2 ^ 32 =
        0x455C + nextOffset buf (total_entries buf) := by
    intro hs
    rw [hdeo, hp.entry_off hs]
    have := nextOffset_le buf hinv
    simp only [CONFIG_SAVEFILE_SIZE] at this
    exact Nat.mod_eq_of_lt (by omega)
  refine ⟨hsize, ?_, hsrc⟩
  unfold payloadOf
  rw [hsize]
  by_cases hs : 4 < size
  · rw [if_neg (by omega), hsrc hs]
    exact bytesAt_congr _ _ _ _ _ (fun i hi => by rw [hp.payload hs i hi, Nat.zero_add])
  · rw [if_pos (by omega)]
    exact bytesAt_congr _ _ _ _ _ (fun i hi => by
      rw [hp.inline (by omega) i hi, Nat.zero_add])

/-- Looking up a block right after its creation, with a flag that shares a bit
with the stored flags, finds the new entry when no older entry has its id. -/
theorem lookup_created (buf buf1 : Memory) (block_id size flags mask : Nat)
    (data output : Memory)
    (hinv : Inv buf) (hte : total_entries buf < BLOCK_ENTRIES)
    (hp : CreatePost buf block_id size flags data buf1)
    (hfit : 4 < size →
      0x455C + nextOffset buf (total_entries buf) + size ≤ CONFIG_SAVEFILE_SIZE)
    (hid : block_id < 4294967296)
    (hfresh : ∀ i, i < total_entries buf → (readEntry buf i).block_id ≠ block_id)
    (hmask : (flags % 65536) &&& mask ≠ 0) :
    ∃ out1, GetConfigInfoBlock buf1 block_id size mask output = some (RESULT_SUCCESS, out1) ∧
      bytesAt out1 0 size = bytesAt data 0 size ∧ ∀ x, size ≤ x → out1 x = output x := by
  obtain ⟨hsize, hpay, hsrc⟩ := payloadOf_created buf buf1 block_id size flags data hinv hte hp hfit
  have hfind : find_if (entryMatches buf1 block_id size mask) BLOCK_ENTRIES 0
      = total_entries buf := by
    apply find_if_eq _ _ _ _ (Nat.zero_le _) (by omega)
    · rw [entryMatches_iff, hsize, hp.entry_id, hp.entry_flags]
      exact ⟨Nat.mod_eq_of_lt hid, rfl, hmask⟩
    · intro j _ hj
      apply entryMatches_false_of_id
      rw [createPost_entry_lt buf buf1 block_id size flags data hte hp j hj]
      exact hfresh j hj
  obtain ⟨out1, h1, h2, h3⟩ := lookup_found buf1 block_id size mask (total_entries buf) output
    hte hfind (by
      intro hs
      rw [hsize] at hs ⊢
      rw [hsrc hs]
      exact hfit hs)
  rw [hsize] at h2 h3
  exact ⟨out1, h1, h2.trans hpay, h3⟩

/-! ## C1: round trip of `CreateConfigInfoBlk` and `GetConfigInfoBlock` -/

/-- C1, counterexample: on the formatted store a new block (id 0x00010001, two
bytes, flags 0xE) is created successfully, but the lookup of that id and size
with the mask 0, every bit of which is set in the flags, returns
`ResultCode(-1)` and leaves the output untouched. -/
theorem c1_mask_zero_not_found :
    (0xE &&& 0 = 0) ∧
    (∀ i, i < total_entries formattedBuffer →
      (readEntry formattedBuffer i).block_id ≠ 0x00010001) ∧
    ∃ buf1, CreateConfigInfoBlk formattedBuffer 0x00010001 2 0xE (ofBytes [1, 2])
        = some (RESULT_SUCCESS, buf1) ∧
      GetConfigInfoBlock buf1 0x00010001 2 0 zeroFilled = some (RESULT_MINUS_ONE, zeroFilled) := by
  refine ⟨by decide, by decide, _, create_eq_created formattedBuffer _ _ _ _ (by decide)
    (by decide) (fun h => absurd h (by decide)), ?_⟩
  exact lookup_not_found _ _ _ _ _ (fun j _ => by simp [entryMatches])

/-- C1, amended: in a store reachable from `FormatConfig` with fewer than 1479
entries, creating a block whose id no existing entry has (flags at most 0xFFFF,
data of length `size`, an out-of-line payload fitting in the buffer) succeeds,
and a lookup of that id and size then succeeds and returns exactly the data,
for every mask that is not zero and has all its bits set in the flags. -/
theorem c1_create_lookup_roundtrip (buf : Memory) (block_id size flags mask : Nat)
    (data : List u8) (output : Memory)
    (hr : Reachable buf) (hte : total_entries buf < BLOCK_ENTRIES)
    (hid : block_id < 4294967296) (hflags : flags ≤ 0xFFFF)
    (hlen : data.length = size)
    (hfit : 4 < size →
      0x455C + nextOffset buf (total_entries buf) + size ≤ CONFIG_SAVEFILE_SIZE)
    (hfresh : ∀ i, i < total_entries buf → (readEntry buf i).block_id ≠ block_id)
    (hsub : flags &&& mask = mask) (hmask : mask ≠ 0) :
    ∃ buf1 out1,
      CreateConfigInfoBlk buf block_id size flags (ofBytes data) = some (RESULT_SUCCESS, buf1) ∧
      GetConfigInfoBlock buf1 block_id size mask output = some (RESULT_SUCCESS, out1) ∧
      bytesAt out1 0 size = data := by
  have hinv := reachable_inv buf hr
  obtain ⟨buf1, hc, hp⟩ := create_post buf block_id size flags (ofBytes data) hte hinv.deo hfit
  have hm : (flags % 65536) &&& mask ≠ 0 := by
    rw [Nat.mod_eq_of_lt (by omega), hsub]
    exact hmask
  obtain ⟨out1, h1, h2, -⟩ := lookup_created buf buf1 block_id size flags mask (ofBytes data)
    output hinv hte hp hfit hid hfresh hm
  refine ⟨buf1, out1, hc, h1, ?_⟩
  rw [h2, ← hlen]
  exact bytesAt_ofBytes data

/-- C1, witness: the round trip at the formatted store, for a two-byte block. -/
theorem c1_create_lookup_roundtrip_witness :
    ∃ buf1 out1,
      CreateConfigInfoBlk formattedBuffer 0x00010001 2 0xE (ofBytes [1, 2])
        = some (RESULT_SUCCESS, buf1) ∧
      GetConfigInfoBlock buf1 0x00010001 2 0x6 zeroFilled = some (RESULT_SUCCESS, out1) ∧
      bytesAt out1 0 2 = [1, 2] :=
  c1_create_lookup_roundtrip formattedBuffer 0x00010001 2 0xE 0x6 [1, 2] zeroFilled
    reachable_formatted (by decide) (by decide) (by decide) rfl
    (fun h => absurd h (by decide)) (by decide) (by decide) (by decide)

/-! ## C2: `CreateConfigInfoBlk` at the capacity -/

/-- C2, counterexample: on a store with `total_entries` = 1479 a call of
`CreateConfigInfoBlk` returns success, not an error, and changes the store:
`total_entries` becomes 1480 and the new entry header is written over the field
`unknown` (offset 17752) and the first bytes of the data region (offset 17756). -/
theorem c2_full_store_create_succeeds :
    total_entries fullStore = 1479 ∧
    (CreateConfigInfoBlk fullStore 0x00010001 1 0x8 (ofBytes [7])).map
      (fun r => (r.1, total_entries r.2, bytesAt r.2 17752 12)) =
        some (RESULT_SUCCESS, 1480, [1, 0, 1, 0, 7, 0, 0, 0, 1, 0, 8, 0]) ∧
    bytesAt fullStore 17752 12 = [0, 0, 0, 0, 0, 0, 0, 0, 0, 0, 0, 0] := by
  decide

/-- C2, amended: `CreateConfigInfoBlk` has no capacity check and no failure
result: whenever a call returns, in any store, it returns success; and every
call issued while `total_entries` < 1479, with a payload that (when out of line)
lies in the buffer, does return, with success. -/
theorem c2_create_succeeds_below_capacity (buf : Memory) (block_id size flags : Nat)
    (data : Memory) :
    (∀ res buf1, CreateConfigInfoBlk buf block_id size flags data = some (res, buf1) →
      res = RESULT_SUCCESS) ∧
    (total_entries buf < BLOCK_ENTRIES →
      (4 < size → (data_entries_offset buf + nextOffset buf (total_entries buf)) % 2 ^ 32 + size
        ≤ CONFIG_SAVEFILE_SIZE) →
      ∃ buf1, CreateConfigInfoBlk buf block_id size flags data = some (RESULT_SUCCESS, buf1)) := by
  constructor
  · intro res buf1 h
    unfold CreateConfigInfoBlk at h
    split at h
    · exact absurd h (by simp)
    · simp only at h
      split at h
      · split at h
        · exact absurd h (by simp)
        · simp only [Option.some.injEq, Prod.mk.injEq] at h
          exact h.1.symm
      · simp only [Option.some.injEq, Prod.mk.injEq] at h
        exact h.1.symm
  · intro hte hfit
    by_cases hs : 4 < size
    · have h1 := total_entries_writeEntry buf (total_entries buf) ⟨block_id, 0, size, flags⟩
      have hn : nextOffset (writeEntry buf (total_entries buf) ⟨block_id, 0, size, flags⟩)
          (total_entries buf) = nextOffset buf (total_entries buf) :=
        nextOffset_congr _ _ _ (fun j hj => readEntry_writeEntry_other _ _ _ _ (by omega))
      have hd : data_entries_offset (writeU32 (writeEntry buf (total_entries buf)
          ⟨block_id, 0, size, flags⟩) (entryAddr (total_entries buf) + 4)
          (nextOffset buf (total_entries buf))) = data_entries_offset buf := by
        apply data_entries_offset_congr
        intro x hx1 hx2
        rw [writeU32_other _ _ _ _ (by rw [entryAddr_eq]; omega),
          writeEntry_other _ _ _ _ (by rw [entryAddr_eq]; omega)]
      have hc : ¬ CONFIG_SAVEFILE_SIZE <
          (data_entries_offset buf + nextOffset buf (total_entries buf)) % 2 ^ 32 + size := by
        have := hfit hs
        omega
      unfold CreateConfigInfoBlk
      rw [if_neg (entry_in_buffer buf hte)]
      simp only [h1, hn, hd]
      rw [if_pos hs, if_neg hc]
      exact ⟨_, rfl⟩
    · exact ⟨_, create_inline_eq buf block_id size flags data hte (by omega)⟩

/-- C2, witness: the fifth block of a formatted store is created successfully. -/
theorem c2_create_succeeds_below_capacity_witness :
    total_entries formattedBuffer < BLOCK_ENTRIES ∧
    ∃ buf1, CreateConfigInfoBlk formattedBuffer 0x00010001 8 0xE (ofBytes [1, 2, 3, 4, 5, 6, 7, 8])
      = some (RESULT_SUCCESS, buf1) :=
  ⟨by decide, (c2_create_succeeds_below_capacity formattedBuffer 0x00010001 8 0xE
    (ofBytes [1, 2, 3, 4, 5, 6, 7, 8])).2 (by decide) (fun _ => by decide)⟩

/-! ## C3: the match rule of `GetConfigInfoBlock` -/

theorem inv_unused_entry (buf : Memory) (hinv : Inv buf) (j : Nat)
    (h1 : total_entries buf ≤ j) (h2 : j < BLOCK_ENTRIES) :
    readEntry buf j = ⟨0, 0, 0, 0⟩ := by
  have hz : ∀ x, entryAddr j ≤ x → x < entryAddr j + 12 → buf x = 0 := by
    intro x hx1 hx2
    simp only [BLOCK_ENTRIES] at h2
    rw [entryAddr_eq] at hx1 hx2
    exact hinv.unused x (by rw [entryAddr_eq]; omega)
      (by simp only [unknownAddr, BLOCK_ENTRIES, entryAddr_eq, ENTRY_SIZE]; omega)
  unfold readEntry readU32 readU16
  rw [hz _ (by omega) (by omega), hz (entryAddr j + 1) (by omega) (by omega),
    hz (entryAddr j + 2) (by omega) (by omega), hz (entryAddr j + 3) (by omega) (by omega),
    hz (entryAddr j + 4) (by omega) (by omega), hz (entryAddr j + 4 + 1) (by omega) (by omega),
    hz (entryAddr j + 4 + 2) (by omega) (by omega),
    hz (entryAddr j + 4 + 3) (by omega) (by omega),
    hz (entryAddr j + 8) (by omega) (by omega), hz (entryAddr j + 8 + 1) (by omega) (by omega),
    hz (entryAddr j + 10) (by omega) (by omega),
    hz (entryAddr j + 10 + 1) (by omega) (by omega)]
  rfl

theorem inv_unused_no_match (buf : Memory) (hinv : Inv buf) (block_id size flag j : Nat)
    (h1 : total_entries buf ≤ j) (h2 : j < BLOCK_ENTRIES) :
    entryMatches buf block_id size flag j = false := by
  unfold entryMatches
  rw [inv_unused_entry buf hinv j h1 h2]
  simp

/-- In a store satisfying the invariant, the index `std::find_if` returns is
either the end or the index of a created entry, the first one that matches. -/
theorem inv_find_if (buf : Memory) (hinv : Inv buf) (block_id size flag : Nat) :
    find_if (entryMatches buf block_id size flag) BLOCK_ENTRIES 0 = BLOCK_ENTRIES ∨
    (find_if (entryMatches buf block_id size flag) BLOCK_ENTRIES 0 < total_entries buf ∧
      entryMatches buf block_id size flag
        (find_if (entryMatches buf block_id size flag) BLOCK_ENTRIES 0) = true) := by
  have hb := find_if_bounds (entryMatches buf block_id size flag) BLOCK_ENTRIES 0
  rcases Nat.eq_or_lt_of_le hb.2 with h | h
  · left; rw [h, Nat.zero_add]
  · right
    have hm := find_if_at _ _ _ h
    refine ⟨?_, hm⟩
    by_contra hc
    rw [inv_unused_no_match buf hinv block_id size flag _ (by omega) (by omega)] at hm
    exact absurd hm (by simp)

theorem inv_entry_fit (buf : Memory) (hinv : Inv buf) (i : Nat) (hi : i < total_entries buf)
    (hs : 4 < (readEntry buf i).size) :
    (data_entries_offset buf + (readEntry buf i).offset_or_data) % 2 ^ 32 +
      (readEntry buf i).size ≤ CONFIG_SAVEFILE_SIZE := by
  have h := hinv.fits i hi hs
  rw [hinv.deo]
  simp only [CONFIG_SAVEFILE_SIZE] at h ⊢
  rw [Nat.mod_eq_of_lt (by omega)]
  omega

/-- C3, counterexample: on the formatted store no created entry has the id
0x000A0002, the size 1 and all bits of the mask 0x3 set in its flags (the block
has the flags 0xA), yet the lookup with that mask succeeds and returns the
language byte. -/
theorem c3_partial_mask_matches :
    (∀ i, i < total_entries formattedBuffer →
      ¬ ((readEntry formattedBuffer i).block_id = 0x000A0002 ∧
        (readEntry formattedBuffer i).size = 1 ∧
        (readEntry formattedBuffer i).flags &&& 0x3 = 0x3)) ∧
    (GetConfigInfoBlock formattedBuffer 0x000A0002 1 0x3 zeroFilled).map
      (fun r => (r.1, bytesAt r.2 0 1)) = some (RESULT_SUCCESS, [1]) := by
  decide

/-- C3, amended: in every store the lookup fails with `ResultCode(-1)`, writing
nothing to the output, if and only if none of the 1479 entry slots has exactly
that block id, exactly that size and at least one bit of the mask set in its
flags (`flags & mask != 0`); and in every store reachable from `FormatConfig` by
`CreateConfigInfoBlk` calls the lookup succeeds if and only if some created entry
has exactly that block id, exactly that size and `flags & mask != 0`. -/
theorem c3_lookup_match_rule (buf : Memory) (block_id size mask : Nat) (output : Memory) :
    (GetConfigInfoBlock buf block_id size mask output = some (RESULT_MINUS_ONE, output) ↔
      ¬ ∃ j, j < BLOCK_ENTRIES ∧ (readEntry buf j).block_id = block_id ∧
        (readEntry buf j).size = size ∧ (readEntry buf j).flags &&& mask ≠ 0) ∧
    (Reachable buf →
      ((∃ out1, GetConfigInfoBlock buf block_id size mask output = some (RESULT_SUCCESS, out1)) ↔
        ∃ i, i < total_entries buf ∧ (readEntry buf i).block_id = block_id ∧
          (readEntry buf i).size = size ∧ (readEntry buf i).flags &&& mask ≠ 0)) := by
  constructor
  · constructor
    · intro h ⟨j, hj, hm⟩
      have hmj := (entryMatches_iff buf block_id size mask j).mpr hm
      have hb := find_if_bounds (entryMatches buf block_id size mask) BLOCK_ENTRIES 0
      have hne : ¬ find_if (entryMatches buf block_id size mask) BLOCK_ENTRIES 0
          = BLOCK_ENTRIES := by
        intro he
        have := find_if_before (entryMatches buf block_id size mask) BLOCK_ENTRIES 0 j
          (Nat.zero_le _) (by omega)
        rw [hmj] at this
        exact absurd this (by simp)
      unfold GetConfigInfoBlock at h
      simp only at h
      rw [if_neg hne] at h
      split at h
      · simp [RESULT_SUCCESS, RESULT_MINUS_ONE] at h
      · split at h
        · exact absurd h (by simp)
        · simp [RESULT_SUCCESS, RESULT_MINUS_ONE] at h
    · intro h
      apply lookup_not_found
      intro j hj
      cases hm : entryMatches buf block_id size mask j with
      | false => rfl
      | true => exact absurd ⟨j, hj, (entryMatches_iff _ _ _ _ _).mp hm⟩ h
  · intro hr
    have hinv := reachable_inv buf hr
    constructor
    · rintro ⟨out1, h⟩
      rcases inv_find_if buf hinv block_id size mask with he | ⟨hlt, hm⟩
      · unfold GetConfigInfoBlock at h
        simp only [he] at h
        rw [if_pos trivial] at h
        simp [RESULT_SUCCESS, RESULT_MINUS_ONE] at h
      · exact ⟨_, hlt, (entryMatches_iff _ _ _ _ _).mp hm⟩
    · rintro ⟨i, hi, hm⟩
      have hmi := (entryMatches_iff buf block_id size mask i).mpr hm
      rcases inv_find_if buf hinv block_id size mask with he | ⟨hlt, -⟩
      · have := find_if_before (entryMatches buf block_id size mask) BLOCK_ENTRIES 0 i
          (Nat.zero_le _) (by have := hinv.te_le; omega)
        rw [hmi] at this
        exact absurd this (by simp)
      · obtain ⟨out1, h1, -⟩ := lookup_found buf block_id size mask _ output
          (by have := hinv.te_le; omega) rfl (inv_entry_fit buf hinv _ hlt)
        exact ⟨out1, h1⟩

/-- C3, witness: on the formatted store the lookup of the console model with the
mask 0xC succeeds, the created entry 2 being the matching one. -/
theorem c3_lookup_match_rule_witness :
    Reachable formattedBuffer ∧
    ((∃ out1, GetConfigInfoBlock formattedBuffer 0x000F0004 4 0xC zeroFilled
        = some (RESULT_SUCCESS, out1)) ↔
      ∃ i, i < total_entries formattedBuffer ∧
        (readEntry formattedBuffer i).block_id = 0x000F0004 ∧
        (readEntry formattedBuffer i).size = 4 ∧
        (readEntry formattedBuffer i).flags &&& 0xC ≠ 0) :=
  ⟨reachable_formatted,
    (c3_lookup_match_rule formattedBuffer 0x000F0004 4 0xC zeroFilled).2 reachable_formatted⟩

/-! ## C4: out-of-line payloads do not overlap -/

/-- The offset the search loop computes lies at or beyond the end of every
out-of-line payload created so far. -/
theorem nextOffset_ge (buf : Memory) (hinv : Inv buf) (i : Nat) (hi : i < total_entries buf)
    (hs : 4 < (readEntry buf i).size) :
    (readEntry buf i).offset_or_data + (readEntry buf i).size
      ≤ nextOffset buf (total_entries buf) := by
  rcases nextOffset_spec buf (total_entries buf) hinv.fits with
    ⟨h1, -⟩ | ⟨k, hk, hk4, hk1, hk2⟩
  · have := h1 i hi
    omega
  · rw [hk2]
    rcases Nat.lt_trichotomy i k with h | h | h
    · have := hinv.mono i k h hk hs hk4
      omega
    · rw [h]
    · have := hk1 i h hi
      omega

/-- C4: in every store reachable from `FormatConfig` by `CreateConfigInfoBlk` calls
the data-region byte ranges `[offset, offset + size)` of two distinct out-of-line
entries are disjoint, and a further `CreateConfigInfoBlk` call with `size > 4`
changes no byte of the payload of a previously created out-of-line entry: every
such byte lies below the position the new payload is written at. -/
theorem c4_payloads_disjoint (buf : Memory) (hr : Reachable buf) :
    (∀ i j x, i < total_entries buf → j < total_entries buf → i ≠ j →
      4 < (readEntry buf i).size → 4 < (readEntry buf j).size →
      (readEntry buf i).offset_or_data ≤ x →
      x < (readEntry buf i).offset_or_data + (readEntry buf i).size →
      ¬ ((readEntry buf j).offset_or_data ≤ x ∧
        x < (readEntry buf j).offset_or_data + (readEntry buf j).size)) ∧
    (∀ block_id size flags res data buf1, total_entries buf < BLOCK_ENTRIES → 4 < size →
      CreateConfigInfoBlk buf block_id size flags data = some (res, buf1) →
      ∀ i x, i < total_entries buf → 4 < (readEntry buf i).size →
        data_entries_offset buf + (readEntry buf i).offset_or_data ≤ x →
        x < data_entries_offset buf + (readEntry buf i).offset_or_data + (readEntry buf i).size →
        buf1 x = buf x ∧
        x < data_entries_offset buf1 + (readEntry buf1 (total_entries buf)).offset_or_data) := by
  have hinv := reachable_inv buf hr
  constructor
  · intro i j x hi hj hij hi4 hj4 h1 h2 ⟨h3, h4⟩
    rcases Nat.lt_or_gt_of_ne hij with h | h
    · have := hinv.mono i j h hj hi4 hj4
      omega
    · have := hinv.mono j i h hi hj4 hi4
      omega
  · intro block_id size flags res data buf1 hte hs hc i x hi hi4 h1 h2
    obtain ⟨-, hp, -⟩ := create_inv_post _ _ _ _ _ _ _ hinv hte hc
    have hge := nextOffset_ge buf hinv i hi hi4
    rw [hinv.deo] at h1 h2
    rw [createPost_deo buf buf1 block_id size flags data hte hp, hinv.deo, hp.entry_off hs]
    simp only [BLOCK_ENTRIES] at hte
    exact ⟨hp.frame x (by omega) (by rw [entryAddr_eq]; omega) (by omega), by omega⟩

/-- C4, witness: the two out-of-line default blocks of the formatted store. -/
theorem c4_payloads_disjoint_witness :
    Reachable formattedBuffer ∧
    ¬ ((readEntry formattedBuffer 1).offset_or_data ≤ 31 ∧
      31 < (readEntry formattedBuffer 1).offset_or_data + (readEntry formattedBuffer 1).size) :=
  ⟨reachable_formatted,
    (c4_payloads_disjoint formattedBuffer reachable_formatted).1 0 1 31 (by decide) (by decide)
      (by decide) (by decide) (by decide) (by decide) (by decide)⟩

/-! ## C5: where `CreateConfigInfoBlk` places the payload -/

/-- C5, counterexample: in the zero-initialised store, which has no entry and
whose `data_entries_offset` is 0, a call with twelve bytes of data writes them
at buffer position 0, over the header: the `offset_or_data` of the new entry 0
ends up holding the last four data bytes instead of 0, `total_entries` becomes
514 instead of 1, and byte 0 of the payload is changed by the increment. -/
theorem c5_unformatted_store_breaks_rule :
    total_entries zeroFilled = 0 ∧ data_entries_offset zeroFilled = 0 ∧
    (CreateConfigInfoBlk zeroFilled 0x00010001 12 0xE
        (ofBytes [1, 2, 3, 4, 5, 6, 7, 8, 9, 10, 11, 12])).map
      (fun r => (r.1, (readEntry r.2 0).offset_or_data, total_entries r.2, bytesAt r.2 0 12)) =
        some (RESULT_SUCCESS, 0x0C0B0A09, 514, [2, 2, 3, 4, 5, 6, 7, 8, 9, 10, 11, 12]) := by
  decide

/-- C5, amended: in a store whose `data_entries_offset` is 0x455C, with fewer than
1479 entries and with the payload of every existing out-of-line entry inside
the buffer, a call with `size > 4` whose payload fits in the buffer stores in
the new entry's `offset_or_data` the sum `offset_or_data + size` of the
out-of-line entry with the highest index below `total_entries`, or 0 if there
is none, and writes the payload at buffer position `data_entries_offset` plus
that offset; a call with `size <= 4` stores the payload bytes in the new entry's
`offset_or_data` field and changes no byte of the data region. -/
theorem c5_placement (buf : Memory) (block_id size flags : Nat) (data : Memory)
    (hte : total_entries buf < BLOCK_ENTRIES) (hdeo : data_entries_offset buf = 0x455C)
    (hfits : ∀ i, i < total_entries buf → 4 < (readEntry buf i).size →
      0x455C + ((readEntry buf i).offset_or_data + (readEntry buf i).size)
        ≤ CONFIG_SAVEFILE_SIZE)
    (hfit : 4 < size →
      0x455C + nextOffset buf (total_entries buf) + size ≤ CONFIG_SAVEFILE_SIZE) :
    ∃ buf1, CreateConfigInfoBlk buf block_id size flags data = some (RESULT_SUCCESS, buf1) ∧
      (4 < size →
        (((∀ i, i < total_entries buf → (readEntry buf i).size ≤ 4) ∧
            (readEntry buf1 (total_entries buf)).offset_or_data = 0) ∨
          (∃ k, k < total_entries buf ∧ 4 < (readEntry buf k).size ∧
            (∀ i, k < i → i < total_entries buf → (readEntry buf i).size ≤ 4) ∧
            (readEntry buf1 (total_entries buf)).offset_or_data =
              (readEntry buf k).offset_or_data + (readEntry buf k).size)) ∧
        ∀ i, i < size →
          buf1 (data_entries_offset buf1 +
            (readEntry buf1 (total_entries buf)).offset_or_data + i) = data i) ∧
      (size ≤ 4 →
        (∀ i, i < size → buf1 (entryAddr (total_entries buf) + 4 + i) = data i) ∧
        ∀ x, data_entries_offset buf ≤ x → buf1 x = buf x) := by
  obtain ⟨buf1, hc, hp⟩ := create_post buf block_id size flags data hte hdeo hfit
  refine ⟨buf1, hc, ?_, ?_⟩
  · intro hs
    rw [hp.entry_off hs, createPost_deo buf buf1 block_id size flags data hte hp, hdeo]
    exact ⟨nextOffset_spec buf (total_entries buf) hfits, hp.payload hs⟩
  · intro hs
    refine ⟨hp.inline hs, ?_⟩
    intro x hx
    rw [hdeo] at hx
    simp only [BLOCK_ENTRIES] at hte
    exact hp.frame x (by omega) (by rw [entryAddr_eq]; omega) (Or.inl hs)

/-- C5, witness: the store `inlineOnly` has one entry, which is inline; the
eight-byte block created in it is placed at offset 0 of the data region. -/
theorem c5_placement_witness :
    total_entries inlineOnly < BLOCK_ENTRIES ∧ data_entries_offset inlineOnly = 0x455C ∧
    (∀ i, i < total_entries inlineOnly → (readEntry inlineOnly i).size ≤ 4) ∧
    ∃ buf1, CreateConfigInfoBlk inlineOnly 0x00010001 8 0xE
        (ofBytes [1, 2, 3, 4, 5, 6, 7, 8]) = some (RESULT_SUCCESS, buf1) ∧
      (readEntry buf1 (total_entries inlineOnly)).offset_or_data = 0 ∧
      ∀ i, i < 8 →
        buf1 (data_entries_offset buf1 +
          (readEntry buf1 (total_entries inlineOnly)).offset_or_data + i) =
            ofBytes [1, 2, 3, 4, 5, 6, 7, 8] i := by
  have hall : ∀ i, i < total_entries inlineOnly → (readEntry inlineOnly i).size ≤ 4 := by
    decide
  obtain ⟨buf1, hc, h4, -⟩ := c5_placement inlineOnly 0x00010001 8 0xE
    (ofBytes [1, 2, 3, 4, 5, 6, 7, 8]) (by decide) (by decide) (by decide) (fun _ => by decide)
  refine ⟨by decide, by decide, hall, buf1, hc, ?_, (h4 (by decide)).2⟩
  rcases (h4 (by decide)).1 with ⟨-, h0⟩ | ⟨k, hk, hk4, -⟩
  · exact h0
  · have := hall k hk
    omega

/-! ## C6: `CreateConfigInfoBlk` only appends -/

/-- C6: in a reachable store with `n` < 1479 entries, a call whose payload fits in
the buffer succeeds, sets `total_entries` to `n + 1`, leaves
`data_entries_offset` at 0x455C and leaves the `n` existing entries unchanged;
apart from `total_entries` and the new entry no byte of the header changes, the
out-of-line payload being written at or beyond the data region start 0x455C,
which is the size 2 + 2 + 1479 * 12 + 4 = 17756 of the header. -/
theorem c6_append_only (buf : Memory) (block_id size flags : Nat) (data : Memory)
    (hr : Reachable buf) (hte : total_entries buf < BLOCK_ENTRIES)
    (hfit : 4 < size →
      0x455C + nextOffset buf (total_entries buf) + size ≤ CONFIG_SAVEFILE_SIZE) :
    ∃ buf1, CreateConfigInfoBlk buf block_id size flags data = some (RESULT_SUCCESS, buf1) ∧
      total_entries buf1 = total_entries buf + 1 ∧
      data_entries_offset buf = 0x455C ∧ data_entries_offset buf1 = 0x455C ∧
      (∀ j, j < total_entries buf → readEntry buf1 j = readEntry buf j) ∧
      (∀ x, 2 ≤ x → x < HEADER_SIZE →
        (x < entryAddr (total_entries buf) ∨ entryAddr (total_entries buf) + 12 ≤ x) →
        buf1 x = buf x) ∧
      HEADER_SIZE ≤ data_entries_offset buf1 +
        (readEntry buf1 (total_entries buf)).offset_or_data ∧
      HEADER_SIZE = 2 + 2 + 1479 * 12 + 4 ∧ HEADER_SIZE = 17756 ∧ HEADER_SIZE = 0x455C := by
  have hinv := reachable_inv buf hr
  obtain ⟨buf1, hc, hp⟩ := create_post buf block_id size flags data hte hinv.deo hfit
  have hd := createPost_deo buf buf1 block_id size flags data hte hp
  refine ⟨buf1, hc, hp.te, hinv.deo, hd.trans hinv.deo,
    createPost_entry_lt buf buf1 block_id size flags data hte hp, ?_, ?_, rfl, rfl, rfl⟩
  · intro x h1 h2 h3
    simp only [HEADER_SIZE, unknownAddr, BLOCK_ENTRIES, entryAddr_eq, ENTRY_SIZE] at h2
    exact hp.frame x h1 h3 (by omega)
  · rw [hd, hinv.deo]
    simp only [HEADER_SIZE, unknownAddr, BLOCK_ENTRIES, entryAddr_eq, ENTRY_SIZE]
    omega

/-- C6, witness: an eight-byte block appended to the formatted store. -/
theorem c6_append_only_witness :
    Reachable formattedBuffer ∧ total_entries formattedBuffer < BLOCK_ENTRIES ∧
    ∃ buf1, CreateConfigInfoBlk formattedBuffer 0x00010001 8 0xE
        (ofBytes [1, 2, 3, 4, 5, 6, 7, 8]) = some (RESULT_SUCCESS, buf1) ∧
      total_entries buf1 = total_entries formattedBuffer + 1 ∧
      data_entries_offset formattedBuffer = 0x455C ∧ data_entries_offset buf1 = 0x455C ∧
      (∀ j, j < total_entries formattedBuffer →
        readEntry buf1 j = readEntry formattedBuffer j) ∧
      (∀ x, 2 ≤ x → x < HEADER_SIZE →
        (x < entryAddr (total_entries formattedBuffer) ∨
          entryAddr (total_entries formattedBuffer) + 12 ≤ x) →
        buf1 x = formattedBuffer x) ∧
      HEADER_SIZE ≤ data_entries_offset buf1 +
        (readEntry buf1 (total_entries formattedBuffer)).offset_or_data ∧
      HEADER_SIZE = 2 + 2 + 1479 * 12 + 4 ∧ HEADER_SIZE = 17756 ∧ HEADER_SIZE = 0x455C :=
  ⟨reachable_formatted, by decide,
    c6_append_only formattedBuffer 0x00010001 8 0xE (ofBytes [1, 2, 3, 4, 5, 6, 7, 8])
      reachable_formatted (by decide) (fun _ => by decide)⟩

/-! ## C7: the default blocks -/

/-- The lookup of a default block of the formatted store, found at entry `i`. -/
theorem lookup_formatted (block_id size flag i : Nat) (output : Memory) (bytes : List u8)
    (hi : i < total_entries formattedBuffer)
    (hf : find_if (entryMatches formattedBuffer block_id size flag) BLOCK_ENTRIES 0 = i)
    (hs : (readEntry formattedBuffer i).size = size)
    (hb : payloadOf formattedBuffer i = bytes) :
    ∃ out1, GetConfigInfoBlock formattedBuffer block_id size flag output
        = some (RESULT_SUCCESS, out1) ∧ bytesAt out1 0 size = bytes := by
  have hinv := inv_formatted
  obtain ⟨out1, h1, h2, -⟩ := lookup_found formattedBuffer block_id size flag i output
    (by have := hinv.te_le; omega) hf (inv_entry_fit formattedBuffer hinv i hi)
  rw [hs, hb] at h2
  exact ⟨out1, h1, h2⟩

/-- C7: a `FormatConfig` whose file deletion and file write succeed returns
success and leaves a store with `total_entries` = 4 and `data_entries_offset` =
0x455C in which the lookup of each default block, with its own id, size and
flags, succeeds: (0x00050005, 32, 0xE) gives `STEREO_CAMERA_SETTINGS`,
(0x00090001, 8, 0xE) gives the eight little-endian bytes of 0xDEADC0DE,
(0x000F0004, 4, 0x8) gives the bytes 01 00 00 00 and (0x000A0002, 1, 0xA) gives
the byte 01. -/
theorem c7_default_blocks (s : State) (output : Memory) :
    ∃ s1, FormatConfig true true s = some (RESULT_SUCCESS, s1) ∧
      total_entries s1.cfg_config_file_buffer = 4 ∧
      data_entries_offset s1.cfg_config_file_buffer = 0x455C ∧
      (∃ out1, GetConfigInfoBlock s1.cfg_config_file_buffer 0x00050005 32 0xE output
          = some (RESULT_SUCCESS, out1) ∧ bytesAt out1 0 32 = STEREO_CAMERA_SETTINGS) ∧
      (∃ out1, GetConfigInfoBlock s1.cfg_config_file_buffer 0x00090001 8 0xE output
          = some (RESULT_SUCCESS, out1) ∧
        bytesAt out1 0 8 = [0xDE, 0xC0, 0xAD, 0xDE, 0, 0, 0, 0] ∧
        bytesAt out1 0 8 = bytesOfU64 0xDEADC0DE) ∧
      (∃ out1, GetConfigInfoBlock s1.cfg_config_file_buffer 0x000F0004 4 0x8 output
          = some (RESULT_SUCCESS, out1) ∧ bytesAt out1 0 4 = [1, 0, 0, 0]) ∧
      (∃ out1, GetConfigInfoBlock s1.cfg_config_file_buffer 0x000A0002 1 0xA output
          = some (RESULT_SUCCESS, out1) ∧ bytesAt out1 0 1 = [1]) := by
  refine ⟨_, formatConfig_eq s, by decide, by decide, ?_, ?_, ?_, ?_⟩
  · exact lookup_formatted 0x00050005 32 0xE 0 output _ (by decide) (by decide) (by decide)
      (by decide)
  · obtain ⟨out1, h1, h2⟩ := lookup_formatted 0x00090001 8 0xE 1 output
      [0xDE, 0xC0, 0xAD, 0xDE, 0, 0, 0, 0] (by decide) (by decide) (by decide) (by decide)
    exact ⟨out1, h1, h2, h2.trans (by decide)⟩
  · exact lookup_formatted 0x000F0004 4 0x8 2 output _ (by decide) (by decide) (by decide)
      (by decide)
  · exact lookup_formatted 0x000A0002 1 0xA 3 output _ (by decide) (by decide) (by decide)
      (by decide)

/-! ## C8: the first match wins -/

/-- A `CreateConfigInfoBlk` call leaves the payload of every existing entry as it
was. -/
theorem payloadOf_preserved (buf buf1 : Memory) (block_id size flags : Nat) (data : Memory)
    (hinv : Inv buf) (hte : total_entries buf < BLOCK_ENTRIES)
    (hp : CreatePost buf block_id size flags data buf1) (i : Nat)
    (hi : i < total_entries buf) : payloadOf buf1 i = payloadOf buf i := by
  have he := createPost_entry_lt buf buf1 block_id size flags data hte hp i hi
  have hd := createPost_deo buf buf1 block_id size flags data hte hp
  unfold payloadOf
  rw [he, hd]
  simp only [BLOCK_ENTRIES] at hte
  by_cases hs : (readEntry buf i).size ≤ 4
  · rw [if_pos hs, if_pos hs]
    apply bytesAt_congr
    intro k hk
    exact hp.frame _ (by rw [entryAddr_eq]; omega) (by rw [entryAddr_eq, entryAddr_eq]; omega)
      (by rw [entryAddr_eq]; omega)
  · rw [if_neg hs, if_neg hs]
    have hfit := hinv.fits i hi (by omega)
    have hge := nextOffset_ge buf hinv i hi (by omega)
    simp only [CONFIG_SAVEFILE_SIZE] at hfit
    rw [hinv.deo, Nat.mod_eq_of_lt (by omega)]
    apply bytesAt_congr
    intro k hk
    exact hp.frame _ (by omega) (by rw [entryAddr_eq]; omega) (by omega)

/-- C8, amended: whenever `GetConfigInfoBlock` succeeds, the bytes it returns are
the payload of the lowest-index entry slot that matches the request; and after
two `CreateConfigInfoBlk` calls in a reachable store in which no existing entry
has the block id, with that same block id, the same size and flags but different
data, a successful lookup of that id and size returns the data of the first call
and not that of the second. -/
theorem c8_first_match_wins (buf : Memory) (block_id size mask : Nat) (output out1 : Memory)
    (h : GetConfigInfoBlock buf block_id size mask output = some (RESULT_SUCCESS, out1)) :
    (∃ i, i < BLOCK_ENTRIES ∧ entryMatches buf block_id size mask i = true ∧
      (∀ j, j < i → entryMatches buf block_id size mask j = false) ∧
      bytesAt out1 0 size = payloadOf buf i) ∧
    (∀ buf0 bufA flags resA resB (data1 data2 : List u8),
      Reachable buf0 → total_entries buf0 + 1 < BLOCK_ENTRIES →
      block_id < 4294967296 →
      (∀ i, i < total_entries buf0 → (readEntry buf0 i).block_id ≠ block_id) →
      data1.length = size → data2.length = size → data1 ≠ data2 →
      CreateConfigInfoBlk buf0 block_id size flags (ofBytes data1) = some (resA, bufA) →
      CreateConfigInfoBlk bufA block_id size flags (ofBytes data2) = some (resB, buf) →
      bytesAt out1 0 size = data1 ∧ bytesAt out1 0 size ≠ data2) := by
  have hb := find_if_bounds (entryMatches buf block_id size mask) BLOCK_ENTRIES 0
  have hlt : find_if (entryMatches buf block_id size mask) BLOCK_ENTRIES 0 < BLOCK_ENTRIES := by
    rcases Nat.eq_or_lt_of_le hb.2 with he | he
    · rw [Nat.zero_add] at he
      unfold GetConfigInfoBlock at h
      simp only [he] at h
      rw [if_pos trivial] at h
      simp [RESULT_SUCCESS, RESULT_MINUS_ONE] at h
    · omega
  have hm := find_if_at (entryMatches buf block_id size mask) BLOCK_ENTRIES 0 (by omega)
  have hsz := ((entryMatches_iff _ _ _ _ _).mp hm).2.1
  have hout : bytesAt out1 0 size = payloadOf buf
      (find_if (entryMatches buf block_id size mask) BLOCK_ENTRIES 0) := by
    have hne : ¬ find_if (entryMatches buf block_id size mask) BLOCK_ENTRIES 0
        = BLOCK_ENTRIES := by omega
    unfold GetConfigInfoBlock at h
    simp only at h
    rw [if_neg hne] at h
    unfold payloadOf
    split at h
    · rename_i hs
      rw [if_pos hs]
      simp only [Option.some.injEq, Prod.mk.injEq, true_and] at h
      rw [← h, hsz]
      exact bytesAt_memcpy _ _ _ _
    · rename_i hs
      rw [if_neg hs]
      split at h
      · exact absurd h (by simp)
      · simp only [Option.some.injEq, Prod.mk.injEq, true_and] at h
        rw [← h, hsz]
        exact bytesAt_memcpy _ _ _ _
  refine ⟨⟨_, hlt, hm, fun j hj => find_if_before _ _ _ j (Nat.zero_le _) hj, hout⟩, ?_⟩
  intro buf0 bufA flags resA resB data1 data2 hr hte hid hfresh hl1 hl2 hne hcA hcB
  have inv0 := reachable_inv buf0 hr
  obtain ⟨-, pA, fA⟩ := create_inv_post _ _ _ _ _ _ _ inv0 (by omega) hcA
  have invA := createPost_inv _ _ _ _ _ _ inv0 (by omega) pA fA
  have hteA : total_entries bufA < BLOCK_ENTRIES := by rw [pA.te]; exact hte
  obtain ⟨-, pB, fB⟩ := create_inv_post _ _ _ _ _ _ _ invA hteA hcB
  have invB := createPost_inv _ _ _ _ _ _ invA hteA pB fB
  have hold0 := createPost_entry_lt _ _ _ _ _ _ (by omega) pA
  have holdA := createPost_entry_lt _ _ _ _ _ _ hteA pB
  -- the entry of the first call, as the second call leaves it
  have heA : readEntry buf (total_entries buf0) = readEntry bufA (total_entries buf0) :=
    holdA _ (by rw [pA.te]; omega)
  have hmA : entryMatches buf block_id size mask (total_entries bufA) = true →
      entryMatches buf block_id size mask (total_entries buf0) = true := by
    intro hB
    rw [entryMatches_iff] at hB ⊢
    rw [heA, pA.entry_id, pA.entry_size, pA.entry_flags]
    rw [pB.entry_id, pB.entry_size, pB.entry_flags] at hB
    exact hB
  have hfind : find_if (entryMatches buf block_id size mask) BLOCK_ENTRIES 0
      = total_entries buf0 := by
    rcases inv_find_if buf invB block_id size mask with he | ⟨hr1, -⟩
    · omega
    · rw [pB.te, pA.te] at hr1
      have hge : total_entries buf0 ≤
          find_if (entryMatches buf block_id size mask) BLOCK_ENTRIES 0 := by
        by_contra hc
        have hj : find_if (entryMatches buf block_id size mask) BLOCK_ENTRIES 0
            < total_entries buf0 := by omega
        have hid1 := ((entryMatches_iff _ _ _ _ _).mp hm).1
        rw [holdA _ (by rw [pA.te]; omega), hold0 _ hj] at hid1
        exact hfresh _ hj hid1
      rcases Nat.eq_or_lt_of_le hge with he | he
      · exact he.symm
      · have heq : find_if (entryMatches buf block_id size mask) BLOCK_ENTRIES 0
            = total_entries bufA := by rw [pA.te]; omega
        have h1 := hmA (by rw [← heq]; exact hm)
        have h2 := find_if_before (entryMatches buf block_id size mask) BLOCK_ENTRIES 0
          (total_entries buf0) (Nat.zero_le _) he
        rw [h1] at h2
        exact absurd h2 (by simp)
  have hpay : bytesAt out1 0 size = data1 := by
    rw [hout, hfind, payloadOf_preserved bufA buf block_id size flags (ofBytes data2) invA hteA
      pB _ (by rw [pA.te]; omega),
      (payloadOf_created buf0 bufA block_id size flags (ofBytes data1) inv0 (by omega) pA fA).2.1,
      ← hl1]
    exact bytesAt_ofBytes data1
  exact ⟨hpay, by rw [hpay]; exact hne⟩

/-- In a store satisfying the invariant a created entry that matches makes the
lookup succeed. -/
theorem lookup_succeeds (buf : Memory) (hinv : Inv buf) (block_id size flag i : Nat)
    (output : Memory) (hi : i < total_entries buf)
    (hm : entryMatches buf block_id size flag i = true) :
    ∃ out1, GetConfigInfoBlock buf block_id size flag output = some (RESULT_SUCCESS, out1) := by
  rcases inv_find_if buf hinv block_id size flag with he | ⟨hlt, -⟩
  · have := find_if_before (entryMatches buf block_id size flag) BLOCK_ENTRIES 0 i
      (Nat.zero_le _) (by have := hinv.te_le; omega)
    rw [hm] at this
    exact absurd this (by simp)
  · obtain ⟨out1, h1, -⟩ := lookup_found buf block_id size flag _ output
      (by have := hinv.te_le; omega) rfl (inv_entry_fit buf hinv _ hlt)
    exact ⟨out1, h1⟩

theorem create_shadowing1 :
    CreateConfigInfoBlk formattedBuffer 0x00010001 2 0xE (ofBytes [1, 2]) =
      some (RESULT_SUCCESS, shadowing1) :=
  create_eq_created formattedBuffer _ _ _ _ (by decide) (by decide)
    (fun h => absurd h (by decide))

theorem create_shadowing2 :
    CreateConfigInfoBlk shadowing1 0x00010001 2 0xE (ofBytes [3, 4]) =
      some (RESULT_SUCCESS, shadowing2) :=
  create_eq_created shadowing1 _ _ _ _ (by decide) (by decide)
    (fun h => absurd h (by decide))

theorem reachable_shadowing2 : Reachable shadowing2 :=
  Reachable.create _ _ _ _ _ _ _
    (Reachable.create _ _ _ _ _ _ _ reachable_formatted (by decide) create_shadowing1)
    (by decide) create_shadowing2

/-- C8, witness: two blocks with the id 0x00010001 created in the formatted store,
the first with the data 01 02, the second with 03 04; the lookup returns 01 02. -/
theorem c8_first_match_wins_witness :
    ∃ out1, GetConfigInfoBlock shadowing2 0x00010001 2 0xE zeroFilled
        = some (RESULT_SUCCESS, out1) ∧
      bytesAt out1 0 2 = [1, 2] ∧ bytesAt out1 0 2 ≠ [3, 4] := by
  obtain ⟨out1, h1⟩ := lookup_succeeds shadowing2 (reachable_inv _ reachable_shadowing2)
    0x00010001 2 0xE 4 zeroFilled (by decide) (by decide)
  exact ⟨out1, h1, (c8_first_match_wins shadowing2 0x00010001 2 0xE zeroFilled out1 h1).2
    formattedBuffer shadowing1 0xE RESULT_SUCCESS RESULT_SUCCESS [1, 2] [3, 4]
    reachable_formatted (by decide) (by decide) (by decide) rfl rfl (by decide)
    create_shadowing1 create_shadowing2⟩

/-! ## C9 and C10: the country code table -/

theorem country_codes_length : country_codes.length = 187 := rfl

theorem country_codes_zero : country_codes.getD 0 0 = 0 := by decide

set_option maxRecDepth 100000 in
/-- Every non-sentinel entry of the table is a 16-bit value that the search loop
finds at its own index. -/
theorem country_codes_search :
    ∀ id, id < 187 → country_codes.getD id 0 ≠ 0 →
      country_codes.getD id 0 < 65536 ∧
      searchCountryCode (country_codes.getD id 0) country_codes 0 = id := by
  decide

theorem setWord_same (cmd : CommandBuffer) (i v : Nat) : setWord cmd i v i = v := by
  simp [setWord]

theorem setWord_other (cmd : CommandBuffer) (i v j : Nat) (h : j ≠ i) :
    setWord cmd i v j = cmd j := by
  simp [setWord, h]

/-- The two outcomes of `GetCountryCodeString`. -/
theorem getCountryCodeString_cases (notFound : Nat) (cmd : CommandBuffer) :
    ((cmd 1 ≥ 187 ∨ country_codes.getD (cmd 1) 0 = 0) →
      GetCountryCodeString notFound cmd = setWord cmd 1 notFound) ∧
    (¬ (cmd 1 ≥ 187 ∨ country_codes.getD (cmd 1) 0 = 0) →
      GetCountryCodeString notFound cmd =
        setWord (setWord cmd 1 0) 2 (country_codes.getD (cmd 1) 0)) := by
  unfold GetCountryCodeString
  simp only [country_codes_length]
  constructor
  · intro h
    rw [if_pos (by rcases h with h | h; exact Or.inl h; exact Or.inr h.symm)]
  · intro h
    rw [if_neg (by rintro (h1 | h1); exact h (Or.inl h1); exact h (Or.inr h1.symm))]

/-- C9: for every id in 0..186 whose table entry is not the sentinel 0,
`GetCountryCodeString` succeeds and produces the entry, and `GetCountryCodeID`
applied to that code succeeds and returns the id; with the id 0, respectively
the code 0, in slot 1 both functions fail with the NotFound result code. -/
theorem c9_country_code_roundtrip (notFound id : Nat) (cmd cmd2 : CommandBuffer)
    (hid : id < 187) (hne : country_codes.getD id 0 ≠ 0) (h1 : cmd 1 = id)
    (h2 : cmd2 1 = GetCountryCodeString notFound cmd 2) :
    GetCountryCodeString notFound cmd 1 = 0 ∧
    GetCountryCodeString notFound cmd 2 = country_codes.getD id 0 ∧
    GetCountryCodeID notFound cmd2 1 = 0 ∧
    GetCountryCodeID notFound cmd2 2 = id ∧
    (∀ c : CommandBuffer, c 1 = 0 →
      GetCountryCodeString notFound c 1 = notFound ∧ GetCountryCodeID notFound c 1 = notFound) := by
  have hs := (getCountryCodeString_cases notFound cmd).2 (by
    rw [h1]
    rintro (h | h)
    · omega
    · exact hne h)
  rw [h1] at hs
  have hc1 : GetCountryCodeString notFound cmd 1 = 0 := by
    rw [hs, setWord_other _ _ _ _ (by decide), setWord_same]
  have hc2 : GetCountryCodeString notFound cmd 2 = country_codes.getD id 0 := by
    rw [hs, setWord_same]
  obtain ⟨hlt, hfind⟩ := country_codes_search id hid hne
  have hid0 : id ≠ 0 := by
    intro h0
    rw [h0] at hne
    exact hne country_codes_zero
  have hi : GetCountryCodeID notFound cmd2 = setWord (setWord cmd2 1 0) 2 id := by
    unfold GetCountryCodeID
    simp only [h2, hc2, Nat.mod_eq_of_lt hlt, hfind]
    rw [if_neg (by omega)]
  refine ⟨hc1, hc2, ?_, ?_, ?_⟩
  · rw [hi, setWord_other _ _ _ _ (by decide), setWord_same]
  · rw [hi, setWord_same]
  · intro c hc
    constructor
    · rw [(getCountryCodeString_cases notFound c).1 (Or.inr (by rw [hc]; exact country_codes_zero)),
        setWord_same]
    · have h0 : searchCountryCode 0 country_codes 0 = 0 := by decide
      unfold GetCountryCodeID
      simp only [hc, Nat.zero_mod, h0]
      rw [if_pos trivial, setWord_other _ _ _ _ (by decide), setWord_same]

set_option maxRecDepth 100000 in
/-- C9, witness: the id 1 (the code "JP"). -/
theorem c9_country_code_roundtrip_witness :
    GetCountryCodeString 1 (setWord (fun _ => 0) 1 1) 1 = 0 ∧
    GetCountryCodeString 1 (setWord (fun _ => 0) 1 1) 2 = country_codes.getD 1 0 ∧
    GetCountryCodeID 1 (setWord (fun _ => 0) 1 (C 'J' 'P')) 1 = 0 ∧
    GetCountryCodeID 1 (setWord (fun _ => 0) 1 (C 'J' 'P')) 2 = 1 ∧
    (∀ c : CommandBuffer, c 1 = 0 →
      GetCountryCodeString 1 c 1 = 1 ∧ GetCountryCodeID 1 c 1 = 1) :=
  c9_country_code_roundtrip 1 1 (setWord (fun _ => 0) 1 1) (setWord (fun _ => 0) 1 (C 'J' 'P'))
    (by decide) (by decide) (by decide) (by decide)

/-- C10: `GetCountryCodeString` leaves the NotFound result code in slot 1 if and
only if the id in slot 1 is at least 187 or its table entry is 0, and then it
changes no other slot (slot 2 included); otherwise it writes 0 to slot 1 and
the table entry, the two characters packed low byte first, to slot 2, and
changes no other slot. -/
theorem c10_get_country_code_string (notFound : Nat) (cmd : CommandBuffer)
    (hnf : notFound ≠ 0) :
    (GetCountryCodeString notFound cmd 1 = notFound ↔
      (cmd 1 ≥ 187 ∨ country_codes.getD (cmd 1) 0 = 0)) ∧
    ((cmd 1 ≥ 187 ∨ country_codes.getD (cmd 1) 0 = 0) →
      ∀ j, j ≠ 1 → GetCountryCodeString notFound cmd j = cmd j) ∧
    (¬ (cmd 1 ≥ 187 ∨ country_codes.getD (cmd 1) 0 = 0) →
      GetCountryCodeString notFound cmd 1 = 0 ∧
      GetCountryCodeString notFound cmd 2 = country_codes.getD (cmd 1) 0 ∧
      ∀ j, j ≠ 1 → j ≠ 2 → GetCountryCodeString notFound cmd j = cmd j) ∧
    country_codes.getD 1 0 = 'J'.toNat + 256 * 'P'.toNat := by
  obtain ⟨hA, hB⟩ := getCountryCodeString_cases notFound cmd
  have hok : ¬ (cmd 1 ≥ 187 ∨ country_codes.getD (cmd 1) 0 = 0) →
      GetCountryCodeString notFound cmd 1 = 0 := by
    intro h
    rw [hB h, setWord_other _ _ _ _ (by decide), setWord_same]
  refine ⟨⟨?_, ?_⟩, ?_, ?_, by decide⟩
  · intro h
    by_contra hc
    rw [hok hc] at h
    exact hnf h.symm
  · intro h
    rw [hA h, setWord_same]
  · intro h j hj
    rw [hA h, setWord_other _ _ _ _ hj]
  · intro h
    refine ⟨hok h, by rw [hB h, setWord_same], ?_⟩
    intro j hj1 hj2
    rw [hB h, setWord_other _ _ _ _ hj2, setWord_other _ _ _ _ hj1]

/-- C10, witness: with a non-zero NotFound code, the id 1. -/
theorem c10_get_country_code_string_witness :
    (1018 : Nat) ≠ 0 ∧
    (GetCountryCodeString 1018 (setWord (fun _ => 0) 1 1) 1 = 1018 ↔
      (setWord (fun _ => 0) 1 1 1 ≥ 187 ∨
        country_codes.getD (setWord (fun _ => 0) 1 1 1) 0 = 0)) :=
  ⟨by decide, (c10_get_country_code_string 1018 (setWord (fun _ => 0) 1 1) (by decide)).1⟩

/-! ## C11: `GetCountryCodeID` -/

/-- The value the search loop leaves in `country_code_id`: the index of the first
entry equal to the code (truncated to 16 bits), or 0 when there is none. -/
theorem searchCountryCode_spec (code : Nat) (l : List Nat) (id : Nat) :
    (∃ i, i < l.length ∧ l.getD i 0 = code ∧ (∀ j, j < i → l.getD j 0 ≠ code) ∧
      searchCountryCode code l id = (id + i) % 65536) ∨
    ((∀ j, j < l.length → l.getD j 0 ≠ code) ∧ searchCountryCode code l id = 0) := by
  induction l generalizing id with
  | nil => exact Or.inr ⟨fun j hj => absurd hj (by simp), rfl⟩
  | cons c l ih =>
    unfold searchCountryCode
    by_cases hc : c = code
    · rw [if_pos hc]
      exact Or.inl ⟨0, by simp, by simpa using hc, fun j hj => absurd hj (by omega), rfl⟩
    · rw [if_neg hc]
      rcases ih (id + 1) with ⟨i, hi, he, hb, hs⟩ | ⟨hb, hs⟩
      · left
        refine ⟨i + 1, by simpa using hi, by simpa using he, ?_, by rw [hs]; congr 1; omega⟩
        intro j hj
        cases j with
        | zero => simpa using hc
        | succ j => simpa using hb j (by omega)
      · right
        refine ⟨?_, hs⟩
        intro j hj
        cases j with
        | zero => simpa using hc
        | succ j => simpa using hb j (by simpa using hj)

/-- C11: `GetCountryCodeID` takes the code from the low 16 bits of slot 1. If the
code is not zero and occurs in `country_codes`, it writes 0 to slot 1 and the
smallest index holding the code, which is never 0, to slot 2; otherwise (the
code is absent, or it is 0, found only at the sentinel index 0) it writes the
NotFound result code to slot 1 and 0xFFFF to slot 2. -/
theorem c11_get_country_code_id (notFound : Nat) (cmd : CommandBuffer) :
    ((cmd 1 % 65536 ≠ 0 ∧ ∃ k, k < 187 ∧ country_codes.getD k 0 = cmd 1 % 65536) →
      ∃ i, i < 187 ∧ country_codes.getD i 0 = cmd 1 % 65536 ∧
        (∀ j, j < i → country_codes.getD j 0 ≠ cmd 1 % 65536) ∧ i ≠ 0 ∧
        GetCountryCodeID notFound cmd = setWord (setWord cmd 1 0) 2 i) ∧
    (¬ (cmd 1 % 65536 ≠ 0 ∧ ∃ k, k < 187 ∧ country_codes.getD k 0 = cmd 1 % 65536) →
      GetCountryCodeID notFound cmd = setWord (setWord cmd 1 notFound) 2 0xFFFF) := by
  have hspec := searchCountryCode_spec (cmd 1 % 65536) country_codes 0
  rw [country_codes_length] at hspec
  constructor
  · rintro ⟨hne, k, hk, hkc⟩
    rcases hspec with ⟨i, hi, he, hb, hs⟩ | ⟨hb, -⟩
    · have hi0 : i ≠ 0 := by
        intro h0
        rw [h0, country_codes_zero] at he
        exact hne he.symm
      refine ⟨i, hi, he, hb, hi0, ?_⟩
      have hs1 : searchCountryCode (cmd 1 % 65536) country_codes 0 = i := by
        rw [hs, Nat.zero_add]
        exact Nat.mod_eq_of_lt (by omega)
      unfold GetCountryCodeID
      simp only [hs1]
      rw [if_neg (by omega)]
    · exact absurd hkc (hb k hk)
  · intro hn
    have h0 : searchCountryCode (cmd 1 % 65536) country_codes 0 = 0 := by
      rcases hspec with ⟨i, hi, he, -, hs⟩ | ⟨-, hs⟩
      · by_cases hz : cmd 1 % 65536 = 0
        · rw [hz]
          decide
        · exact absurd ⟨hz, i, hi, he⟩ hn
      · exact hs
    unfold GetCountryCodeID
    simp only [h0]
    rw [if_pos trivial]

set_option maxRecDepth 100000 in
/-- C11, witness: the code "JP" in slot 1. -/
theorem c11_get_country_code_id_witness :
    (setWord (fun _ => 0) 1 (C 'J' 'P') 1 % 65536 ≠ 0 ∧
      ∃ k, k < 187 ∧ country_codes.getD k 0 = setWord (fun _ => 0) 1 (C 'J' 'P') 1 % 65536) ∧
    ∃ i, i < 187 ∧ country_codes.getD i 0 = setWord (fun _ => 0) 1 (C 'J' 'P') 1 % 65536 ∧
      (∀ j, j < i → country_codes.getD j 0 ≠ setWord (fun _ => 0) 1 (C 'J' 'P') 1 % 65536) ∧
      i ≠ 0 ∧
      GetCountryCodeID 1018 (setWord (fun _ => 0) 1 (C 'J' 'P')) =
        setWord (setWord (setWord (fun _ => 0) 1 (C 'J' 'P')) 1 0) 2 i :=
  ⟨⟨by decide, 1, by decide, by decide⟩,
    (c11_get_country_code_id 1018 (setWord (fun _ => 0) 1 (C 'J' 'P'))).1
      ⟨by decide, 1, by decide, by decide⟩⟩

end CFG_U

namespace HLE

/-! ## Register and conversion lemmas -/

theorem toU32_val (n : Nat) : (toU32 n).val = n % 4294967296 := rfl

theorem SetReg_same (regs : Registers) (n v : Nat) : SetReg regs n v n = toU32 v := by
  simp [SetReg]

theorem SetReg_other (regs : Registers) (n v i : Nat) (h : i ≠ n) :
    SetReg regs n v i = regs i := by
  simp [SetReg, h]

theorem pattern32_lt (v : Int) : pattern32 v < 4294967296 := by
  unfold pattern32
  omega

theorem pattern64_lt (v : Int) : pattern64 v < 18446744073709551616 := by
  unfold pattern64
  omega

theorem pattern64_toS64 (p : Nat) (h : p < 18446744073709551616) : pattern64 (toS64 p) = p := by
  unfold pattern64 toS64
  split <;> omega

theorem toS32_pattern32 (r : Int) (h1 : -2147483648 ≤ r) (h2 : r < 2147483648) :
    toS32 (pattern32 r) = r := by
  unfold pattern32 toS32
  split <;> omega

theorem shiftLeft_or (lo hi : Nat) (h : lo < 4294967296) :
    (hi <<< 32) ||| lo = lo + 4294967296 * hi := by
  rw [Nat.shiftLeft_eq, Nat.mul_comm, ← Nat.mul_add_lt_is_or (by simpa using h)]
  omega

theorem PARAM_lt (regs : Registers) (n : Nat) : PARAM regs n < 4294967296 := (regs n).isLt

/-- The halves `FuncReturn64` stores. -/
theorem and_mask32 (x : Nat) : x &&& 0xFFFFFFFF = x % 4294967296 := by
  have h := Nat.and_pow_two_sub_one_eq_mod x 32
  simpa using h

theorem wrapReturn_zero (regs : Registers) (r : HandlerResult) :
    (wrapReturn regs r 0).val = pattern32 r.retval := by
  unfold wrapReturn FuncReturn
  rw [SetReg_same, toU32_val]
  exact Nat.mod_eq_of_lt (pattern32_lt _)

theorem wrapReturn_other (regs : Registers) (r : HandlerResult) (n : Nat) (h : n ≠ 0) :
    wrapReturn regs r n = regs n := by
  unfold wrapReturn FuncReturn
  exact SetReg_other _ _ _ _ h

theorem wrapOutput_zero (regs : Registers) (r : HandlerResult) :
    (wrapOutput regs r 0).val = pattern32 r.retval := by
  unfold wrapOutput FuncReturn
  rw [SetReg_same, toU32_val]
  exact Nat.mod_eq_of_lt (pattern32_lt _)

theorem wrapOutput_one (regs : Registers) (r : HandlerResult) :
    (wrapOutput regs r 1).val = pattern32 (r.param_1.getD 0) := by
  unfold wrapOutput FuncReturn
  rw [SetReg_other _ _ _ _ (by decide), SetReg_same, toU32_val]
  exact Nat.mod_eq_of_lt (pattern32_lt _)

theorem wrapOutput_other (regs : Registers) (r : HandlerResult) (n : Nat) (h : 2 ≤ n) :
    wrapOutput regs r n = regs n := by
  unfold wrapOutput FuncReturn
  rw [SetReg_other _ _ _ _ (by omega), SetReg_other _ _ _ _ (by omega)]

/-! ## The call a wrapper makes -/

theorem or32 (regs : Registers) (lo hi : Nat) :
    (PARAM regs hi <<< 32) ||| PARAM regs lo = PARAM regs lo + 4294967296 * PARAM regs hi :=
  shiftLeft_or _ _ (PARAM_lt regs lo)

/-! ## C12: the registers the arguments are read from -/

/-- C12, counterexample: with 7, 9, 11, 13 in registers 0 to 3, the wrapper of
a function `(u32*, u32)` passes 9, the content of register 1, where the rule
reads register 0; and the wrapper of a function `(u32, s64)` builds the 64-bit
value from registers 2 and 3, where the rule reads registers 1 and 2. -/
theorem c12_rule_fails_for_output_and_split :
    args nullTranslator (regsOf [7, 9, 11, 13]) .s32_u32p_u32 = [.out_u32, .u32 9] ∧
    specArgs nullTranslator (regsOf [7, 9, 11, 13]) (slots .s32_u32p_u32) 0
      = [.out_u32, .u32 7] ∧
    (Wrap nullTranslator secondWord (regsOf [7, 9, 11, 13]) .s32_u32p_u32 0).val = 9 ∧
    (WrapEvents nullTranslator secondWord (regsOf [7, 9, 11, 13]) .s32_u32p_u32).head?
      = some (.call [.out_u32, .u32 9]) ∧
    (WrapEvents nullTranslator secondWord (regsOf [7, 9, 11, 13]) .s32_u32_s64).head?
      = some (.call [.u32 7, .s64 55834574859]) ∧
    args nullTranslator (regsOf [7, 9, 11, 13]) .s32_u32_s64 = [.u32 7, .s64 55834574859] ∧
    specArgs nullTranslator (regsOf [7, 9, 11, 13]) (slots .s32_u32_s64) 0
      = [.u32 7, .s64 47244640265] ∧
    (55834574859 : Int) = 11 + 4294967296 * 13 ∧ (47244640265 : Int) = 9 + 4294967296 * 11 := by
  decide

/-- C12, amended: for every wrapped function, the wrappers of the signatures of
`conformingShapes` call it with the arguments read from the registers assigned
left to right from register 0 on, one register for a word, signed word,
boolean, buffer pointer or string pointer, two for a split 64-bit value, none
for an output word; the wrappers of the signatures of `skippingShapes`, which
have an output word, use the same assignment from register 1 on; the wrapper of
`(u32, s64)` reads the word from register 0 and the 64-bit value from registers
2 and 3; the wrapper of `(s32*, u32*, s32, bool, s64)` reads the pointer, signed
word and boolean from registers 1, 2 and 3 and the 64-bit value from registers
0 (low) and 4 (high). These are all the signatures. -/
theorem c12_register_assignment (T : Translator) (func : Handler) (regs : Registers) :
    (∀ shape, shape ∈ conformingShapes →
      CallsWith T func regs shape (specArgs T regs (slots shape) 0) ∧
      args T regs shape = specArgs T regs (slots shape) 0) ∧
    (∀ shape, shape ∈ skippingShapes →
      CallsWith T func regs shape (specArgs T regs (slots shape) 1) ∧
      args T regs shape = specArgs T regs (slots shape) 1) ∧
    CallsWith T func regs .s32_u32_s64
      [.u32 (PARAM regs 0), .s64 (toS64 ((PARAM regs 3 <<< 32) ||| PARAM regs 2))] ∧
    CallsWith T func regs .s32_s32p_u32p_s32_bool_s64
      [.out_s32, .pointer (T.GetPointer (PARAM regs 1)), .s32 (toS32 (PARAM regs 2)),
        .bool (PARAM regs 3 != 0), .s64 (toS64 ((PARAM regs 4 <<< 32) ||| PARAM regs 0))] ∧
    (∀ shape, shape ∈ conformingShapes ∨ shape ∈ skippingShapes ∨ shape = .s32_u32_s64 ∨
      shape = .s32_s32p_u32p_s32_bool_s64) := by
  refine ⟨?_, ?_, ?_, ?_, ?_⟩
  · intro shape h
    cases shape <;> first
      | exact absurd h (by decide)
      | exact ⟨⟨rfl, rfl,
          fun h => by first | exact absurd h (by decide) | rfl,
          fun h => by first | exact absurd h (by decide) | rfl,
          fun h => by first | exact absurd h (by decide) | rfl,
          fun h => by first | exact absurd h (by decide) | exact ⟨rfl, rfl⟩⟩, rfl⟩
  · intro shape h
    cases shape <;> first
      | exact absurd h (by decide)
      | exact ⟨⟨rfl, rfl, fun h => absurd h (by decide), fun _ => rfl,
          fun h => absurd h (by decide), fun h => absurd h (by decide)⟩, rfl⟩
  · exact ⟨rfl, rfl, fun _ => rfl, fun h => absurd h (by decide),
      fun h => absurd h (by decide), fun h => absurd h (by decide)⟩
  · exact ⟨rfl, rfl, fun h => absurd h (by decide), fun _ => rfl,
      fun h => absurd h (by decide), fun h => absurd h (by decide)⟩
  · intro shape
    cases shape <;> decide

/-- C12, witness: the plain four-word signature with 7, 0, 0, 0 in the registers. -/
theorem c12_register_assignment_witness :
    Shape.s32_u32_u32_u32_u32 ∈ conformingShapes ∧
    CallsWith nullTranslator secondWord (regsOf [7, 0, 0, 0]) .s32_u32_u32_u32_u32
      (specArgs nullTranslator (regsOf [7, 0, 0, 0]) (slots .s32_u32_u32_u32_u32) 0) ∧
    specArgs nullTranslator (regsOf [7, 0, 0, 0]) (slots .s32_u32_u32_u32_u32) 0 =
      [.u32 7, .u32 0, .u32 0, .u32 0] :=
  ⟨by decide,
    ((c12_register_assignment nullTranslator secondWord (regsOf [7, 0, 0, 0])).1 _
      (by decide)).1,
    by decide⟩

/-! ## C13: the split 64-bit argument -/

/-- C13: the four signatures with a 64-bit argument are `void(s64)`, read from
registers 0 and 1, `(u32, s64)`, read from registers 2 and 3,
`(u32, u32, u32, u32, s64)`, read from registers 4 and 5, and
`(s32*, u32*, s32, bool, s64)`, read from registers 0 and 4. For every wrapped
function, the wrapper of each calls it with a 64-bit argument whose pattern is
`low + 2^32 * high`, `low` being the content of the lower-numbered and `high`
that of the higher-numbered register; with 0 and 1 in registers 0 and 1, the
wrapper of `void(s64)` calls the function with 0x100000000. -/
theorem c13_split64_decoding (T : Translator) (func : Handler) (regs : Registers) :
    (∀ shape lo hi, (shape, lo, hi) ∈
        [(Shape.void_s64, 0, 1), (.s32_u32_s64, 2, 3), (.s32_u32_u32_u32_u32_s64, 4, 5),
          (.s32_s32p_u32p_s32_bool_s64, 0, 4)] →
      lo < hi ∧
      CallsWith T func regs shape (args T regs shape) ∧
      Arg.s64 (toS64 ((regs lo).val + 4294967296 * (regs hi).val)) ∈ args T regs shape ∧
      pattern64 (toS64 ((regs lo).val + 4294967296 * (regs hi).val)) =
        (regs lo).val + 4294967296 * (regs hi).val) ∧
    (∀ shape, Slot.split64 ∈ slots shape →
      shape = .void_s64 ∨ shape = .s32_u32_s64 ∨ shape = .s32_u32_u32_u32_u32_s64 ∨
        shape = .s32_s32p_u32p_s32_bool_s64) ∧
    CallsWith T func regs .void_s64
      [.s64 (toS64 (PARAM regs 0 + 4294967296 * PARAM regs 1))] ∧
    CallsWith T func regs .s32_u32_s64
      [.u32 (PARAM regs 0), .s64 (toS64 (PARAM regs 2 + 4294967296 * PARAM regs 3))] ∧
    CallsWith T func regs .s32_u32_u32_u32_u32_s64
      [.u32 (PARAM regs 0), .u32 (PARAM regs 1), .u32 (PARAM regs 2), .u32 (PARAM regs 3),
        .s64 (toS64 (PARAM regs 4 + 4294967296 * PARAM regs 5))] ∧
    CallsWith T func regs .s32_s32p_u32p_s32_bool_s64
      [.out_s32, .pointer (T.GetPointer (PARAM regs 1)), .s32 (toS32 (PARAM regs 2)),
        .bool (PARAM regs 3 != 0), .s64 (toS64 (PARAM regs 0 + 4294967296 * PARAM regs 4))] ∧
    (regs 0 = 0 → regs 1 = 1 →
      args T regs .void_s64 = [.s64 0x100000000] ∧
      CallsWith T func regs .void_s64 [.s64 0x100000000] ∧
      WrapEvents T func regs .void_s64 = [.call [.s64 0x100000000]]) := by
  have hpat : ∀ lo hi, pattern64 (toS64 ((regs lo).val + 4294967296 * (regs hi).val)) =
      (regs lo).val + 4294967296 * (regs hi).val := by
    intro lo hi
    have h1 := (regs lo).isLt
    have h2 := (regs hi).isLt
    exact pattern64_toS64 _ (by omega)
  have hor : ∀ lo hi, (PARAM regs hi <<< 32) ||| PARAM regs lo =
      (regs lo).val + 4294967296 * (regs hi).val := fun lo hi => or32 regs lo hi
  have e0 : args T regs .void_s64 =
      [.s64 (toS64 (PARAM regs 0 + 4294967296 * PARAM regs 1))] := by
    simp only [args, or32]
  have e1 : args T regs .s32_u32_s64 =
      [.u32 (PARAM regs 0), .s64 (toS64 (PARAM regs 2 + 4294967296 * PARAM regs 3))] := by
    simp only [args, or32]
  have e2 : args T regs .s32_u32_u32_u32_u32_s64 =
      [.u32 (PARAM regs 0), .u32 (PARAM regs 1), .u32 (PARAM regs 2), .u32 (PARAM regs 3),
        .s64 (toS64 (PARAM regs 4 + 4294967296 * PARAM regs 5))] := by
    simp only [args, or32]
  have e3 : args T regs .s32_s32p_u32p_s32_bool_s64 =
      [.out_s32, .pointer (T.GetPointer (PARAM regs 1)), .s32 (toS32 (PARAM regs 2)),
        .bool (PARAM regs 3 != 0),
        .s64 (toS64 (PARAM regs 0 + 4294967296 * PARAM regs 4))] := by
    simp only [args, or32]
  have c0 : CallsWith T func regs .void_s64 (args T regs .void_s64) :=
    ⟨rfl, rfl, fun h => absurd h (by decide), fun h => absurd h (by decide),
      fun h => absurd h (by decide), fun _ => ⟨rfl, rfl⟩⟩
  have c1 : CallsWith T func regs .s32_u32_s64 (args T regs .s32_u32_s64) :=
    ⟨rfl, rfl, fun _ => rfl, fun h => absurd h (by decide),
      fun h => absurd h (by decide), fun h => absurd h (by decide)⟩
  have c2 : CallsWith T func regs .s32_u32_u32_u32_u32_s64
      (args T regs .s32_u32_u32_u32_u32_s64) :=
    ⟨rfl, rfl, fun _ => rfl, fun h => absurd h (by decide),
      fun h => absurd h (by decide), fun h => absurd h (by decide)⟩
  have c3 : CallsWith T func regs .s32_s32p_u32p_s32_bool_s64
      (args T regs .s32_s32p_u32p_s32_bool_s64) :=
    ⟨rfl, rfl, fun h => absurd h (by decide), fun _ => rfl,
      fun h => absurd h (by decide), fun h => absurd h (by decide)⟩
  refine ⟨?_, ?_, e0 ▸ c0, e1 ▸ c1, e2 ▸ c2, e3 ▸ c3, ?_⟩
  · intro shape lo hi h
    simp only [List.mem_cons, Prod.mk.injEq, List.mem_singleton, List.not_mem_nil,
      or_false] at h
    rcases h with ⟨rfl, rfl, rfl⟩ | ⟨rfl, rfl, rfl⟩ | ⟨rfl, rfl, rfl⟩ | ⟨rfl, rfl, rfl⟩
    · refine ⟨by decide, c0, ?_, hpat 0 1⟩
      rw [← hor 0 1]
      simp [args]
    · refine ⟨by decide, c1, ?_, hpat 2 3⟩
      rw [← hor 2 3]
      simp [args]
    · refine ⟨by decide, c2, ?_, hpat 4 5⟩
      rw [← hor 4 5]
      simp [args]
    · refine ⟨by decide, c3, ?_, hpat 0 4⟩
      rw [← hor 0 4]
      simp [args]
  · intro shape h
    cases shape <;> first | exact absurd h (by decide) | simp
  · intro h0 h1
    have hv : args T regs .void_s64 = [.s64 0x100000000] := by
      rw [e0]
      unfold PARAM
      rw [h0, h1]
      decide
    have hc := c0
    rw [hv] at hc
    exact ⟨hv, hc, (hc.2.2.2.2.2 (Or.inl rfl)).1⟩

/-- C13, witness: registers 0 and 1 holding 0 and 1, decoded by `void(s64)`. -/
theorem c13_split64_decoding_witness :
    regsOf [0, 1] 0 = 0 ∧ regsOf [0, 1] 1 = 1 ∧
    args nullTranslator (regsOf [0, 1]) .void_s64 = [.s64 0x100000000] ∧
    CallsWith nullTranslator secondWord (regsOf [0, 1]) .void_s64 [.s64 0x100000000] ∧
    WrapEvents nullTranslator secondWord (regsOf [0, 1]) .void_s64
      = [.call [.s64 0x100000000]] :=
  ⟨by decide, by decide,
    (c13_split64_decoding nullTranslator secondWord (regsOf [0, 1])).2.2.2.2.2.2
      (by decide) (by decide)⟩

/-! ## C14: the result encoding -/

/-- C14: `FuncReturn` writes register 0 only and `FuncReturn64` registers 0 and 1
only. After the wrapper of a function returning a 32-bit result `r`, register 0
holds the 32-bit two's-complement pattern of `r`, which read back as `s32` is
`r`; the wrappers without an output word leave every other register as it was,
those with an output word every register from 2 on. After the wrapper of a
function returning a 64-bit value `x`, register 0 holds the pattern of `x`
modulo 2^32 and register 1 the pattern divided by 2^32, so that register 0 plus
2^32 times register 1 is the pattern of `x`, and the other registers are as they
were. -/
theorem c14_result_encoding (T : Translator) (func : Handler) (regs : Registers) :
    (∀ res n, n ≠ 0 → FuncReturn regs res n = regs n) ∧
    (∀ res n, n ≠ 0 → n ≠ 1 → FuncReturn64 regs res n = regs n) ∧
    (∀ shape, shape ∈ plainResultShapes ∨ shape ∈ outputShapes →
      (Wrap T func regs shape 0).val = pattern32 (func (args T regs shape)).retval ∧
      (-2147483648 ≤ (func (args T regs shape)).retval →
        (func (args T regs shape)).retval < 2147483648 →
        toS32 (Wrap T func regs shape 0).val = (func (args T regs shape)).retval) ∧
      (∀ n, 2 ≤ n → Wrap T func regs shape n = regs n) ∧
      (shape ∈ plainResultShapes → Wrap T func regs shape 1 = regs 1)) ∧
    ((Wrap T func regs .s64_void 0).val =
        pattern64 (func (args T regs .s64_void)).retval % 4294967296 ∧
      (Wrap T func regs .s64_void 1).val =
        pattern64 (func (args T regs .s64_void)).retval / 4294967296 % 4294967296 ∧
      (Wrap T func regs .s64_void 0).val + 4294967296 * (Wrap T func regs .s64_void 1).val =
        pattern64 (func (args T regs .s64_void)).retval ∧
      ∀ n, 2 ≤ n → Wrap T func regs .s64_void n = regs n) := by
  have h64a : (Wrap T func regs .s64_void 0).val =
      pattern64 (func (args T regs .s64_void)).retval % 4294967296 := by
    show (FuncReturn64 regs _ 0).val = _
    unfold FuncReturn64
    rw [SetReg_other _ _ _ _ (by decide), SetReg_same, toU32_val, and_mask32]
    omega
  have h64b : (Wrap T func regs .s64_void 1).val =
      pattern64 (func (args T regs .s64_void)).retval / 4294967296 % 4294967296 := by
    show (FuncReturn64 regs _ 1).val = _
    unfold FuncReturn64
    rw [SetReg_same, toU32_val, and_mask32, Nat.shiftRight_eq_div_pow]
    omega
  refine ⟨?_, ?_, ?_, h64a, h64b, ?_, ?_⟩
  · intro res n hn
    exact SetReg_other _ _ _ _ hn
  · intro res n h0 h1
    unfold FuncReturn64
    rw [SetReg_other _ _ _ _ h1, SetReg_other _ _ _ _ h0]
  · intro shape h
    have key : (Wrap T func regs shape = wrapReturn regs (func (args T regs shape)) ∧
          shape ∈ plainResultShapes) ∨
        (Wrap T func regs shape = wrapOutput regs (func (args T regs shape)) ∧
          shape ∉ plainResultShapes) := by
      cases shape <;> first
        | exact absurd h (by decide)
        | exact Or.inl ⟨rfl, by decide⟩
        | exact Or.inr ⟨rfl, by decide⟩
    rcases key with ⟨hw, hp⟩ | ⟨hw, hp⟩
    · rw [hw]
      refine ⟨wrapReturn_zero _ _, fun h1 h2 => ?_, fun n hn => wrapReturn_other _ _ n (by omega),
        fun _ => wrapReturn_other _ _ 1 (by decide)⟩
      rw [wrapReturn_zero]
      exact toS32_pattern32 _ h1 h2
    · rw [hw]
      refine ⟨wrapOutput_zero _ _, fun h1 h2 => ?_, fun n hn => wrapOutput_other _ _ n hn,
        fun h => absurd h hp⟩
      rw [wrapOutput_zero]
      exact toS32_pattern32 _ h1 h2
  · rw [h64a, h64b]
    have := pattern64_lt (func (args T regs .s64_void)).retval
    omega
  · intro n hn
    show FuncReturn64 regs _ n = _
    unfold FuncReturn64
    rw [SetReg_other _ _ _ _ (by omega), SetReg_other _ _ _ _ (by omega)]

/-- C14, witness: the wrapper `(u32*, u32)` of a function that returns its second
argument, with 9 in register 1. -/
theorem c14_result_encoding_witness :
    (Shape.s32_u32p_u32 ∈ plainResultShapes ∨ Shape.s32_u32p_u32 ∈ outputShapes) ∧
    (Wrap nullTranslator secondWord (regsOf [7, 9, 11, 13]) .s32_u32p_u32 0).val =
      pattern32 (secondWord (args nullTranslator (regsOf [7, 9, 11, 13]) .s32_u32p_u32)).retval :=
  ⟨by decide,
    ((c14_result_encoding nullTranslator secondWord (regsOf [7, 9, 11, 13])).2.2.1
      .s32_u32p_u32 (by decide)).1⟩

/-! ## C15: the output word -/

/-- C15: the signatures whose first parameter is an output word are those of
`outputShapes`. For each of them, and for every wrapped function, the wrapper
passes the pointer to the scratch variable as first argument and then does two
things in this order: it sets register 1 to the value the function left in the
scratch variable (0, the initial value, if the function stored nothing), and
after that register 0 to the result. The register file it returns is the one
these two writes leave; a function that stores 42 leaves 42 in register 1. -/
theorem c15_output_word (T : Translator) (func : Handler) (regs : Registers) :
    (∀ shape, (slots shape).head? = some .outWord ∨ (slots shape).head? = some .outSignedWord ↔
      shape ∈ outputShapes) ∧
    (∀ shape, shape ∈ outputShapes →
      ((args T regs shape).head? = some .out_u32 ∨ (args T regs shape).head? = some .out_s32) ∧
      WrapEvents T func regs shape =
        [.call (args T regs shape),
          .setReg 1 (pattern32 ((func (args T regs shape)).param_1.getD 0)),
          .setReg 0 (pattern32 (func (args T regs shape)).retval)] ∧
      Wrap T func regs shape = replay regs (WrapEvents T func regs shape) ∧
      Wrap T func regs shape =
        SetReg (SetReg regs 1 (pattern32 ((func (args T regs shape)).param_1.getD 0))) 0
          (pattern32 (func (args T regs shape)).retval) ∧
      (Wrap T func regs shape 1).val = pattern32 ((func (args T regs shape)).param_1.getD 0) ∧
      (Wrap T func regs shape 0).val = pattern32 (func (args T regs shape)).retval ∧
      ((func (args T regs shape)).param_1 = none → (Wrap T func regs shape 1).val = 0) ∧
      ((func (args T regs shape)).param_1 = some 42 → (Wrap T func regs shape 1).val = 42)) := by
  constructor
  · intro shape
    cases shape <;> decide
  · intro shape h
    have key : Wrap T func regs shape = wrapOutput regs (func (args T regs shape)) ∧
        ((args T regs shape).head? = some .out_u32 ∨
          (args T regs shape).head? = some .out_s32) ∧
        WrapEvents T func regs shape = outputEvents func (args T regs shape) ∧
        Wrap T func regs shape = replay regs (WrapEvents T func regs shape) := by
      cases shape <;> first
        | exact absurd h (by decide)
        | exact ⟨rfl, Or.inl rfl, rfl, rfl⟩
        | exact ⟨rfl, Or.inr rfl, rfl, rfl⟩
    refine ⟨key.2.1, key.2.2.1.trans rfl, key.2.2.2, key.1.trans rfl, ?_, ?_, ?_, ?_⟩
    · rw [key.1]; exact wrapOutput_one _ _
    · rw [key.1]; exact wrapOutput_zero _ _
    · intro hn
      rw [key.1, wrapOutput_one, hn]
      decide
    · intro hs
      rw [key.1, wrapOutput_one, hs]
      decide

/-- C15, witness: the wrapper `(u32*, u32)` of a function that stores 42 in the
scratch variable and returns its second argument, with 9 in register 1. -/
theorem c15_output_word_witness :
    Shape.s32_u32p_u32 ∈ outputShapes ∧
    WrapEvents nullTranslator secondWord (regsOf [7, 9, 11, 13]) .s32_u32p_u32 =
      [.call [.out_u32, .u32 9], .setReg 1 42, .setReg 0 9] ∧
    (Wrap nullTranslator secondWord (regsOf [7, 9, 11, 13]) .s32_u32p_u32 1).val = 42 :=
  ⟨by decide,
    ((c15_output_word nullTranslator secondWord (regsOf [7, 9, 11, 13])).2
      .s32_u32p_u32 (by decide)).2.1.trans (by decide),
    ((c15_output_word nullTranslator secondWord (regsOf [7, 9, 11, 13])).2
      .s32_u32p_u32 (by decide)).2.2.2.2.2.2.2 (by decide)⟩

end HLE

namespace CFG_U

/-! ## C16: the savegame file and the service bring-up -/

theorem entryMatches_zeroFilled (block_id size flag j : Nat) :
    entryMatches zeroFilled block_id size flag j = false := by
  simp [entryMatches, readEntry, readU16, zeroFilled]

/-- Every lookup in the zero-initialised buffer fails, writing nothing. -/
theorem lookup_zeroFilled (block_id size flag : Nat) (output : Memory) :
    GetConfigInfoBlock zeroFilled block_id size flag output = some (RESULT_MINUS_ONE, output) :=
  lookup_not_found _ _ _ _ _ (fun j _ => entryMatches_zeroFilled block_id size flag j)

/-- C16, counterexample: in the formatted store the lookup of the console model
succeeds; after the buffer has been written to the file, a fresh service
bring-up that finds the file leaves a buffer in which the same lookup returns
`ResultCode(-1)`. -/
theorem c16_bring_up_does_not_load :
    (∃ out1, GetConfigInfoBlock formattedBuffer 0x000F0004 4 0x8 zeroFilled
        = some (RESULT_SUCCESS, out1) ∧ bytesAt out1 0 4 = [1, 0, 0, 0]) ∧
    ∃ s1, UpdateConfigNANDSavegame true ⟨formattedBuffer, none⟩ = some (RESULT_SUCCESS, s1) ∧
      ∃ s2, Interface true true true true (freshState s1.config_file) = some s2 ∧
        GetConfigInfoBlock s2.cfg_config_file_buffer 0x000F0004 4 0x8 zeroFilled
          = some (RESULT_MINUS_ONE, zeroFilled) :=
  ⟨lookup_formatted 0x000F0004 4 0x8 2 zeroFilled _ (by decide) (by decide) (by decide)
      (by decide),
    _, rfl, _, rfl, lookup_zeroFilled _ _ _ _⟩

/-- C16, amended: `UpdateConfigNANDSavegame` leaves the buffer as it is and writes
its 0x8000 bytes verbatim to the start of the file; a fresh service bring-up
that finds the file does not read it: it leaves the zero-initialised buffer and
the file as they are, so that every lookup then returns `ResultCode(-1)`. -/
theorem c16_persist_then_bring_up (s : State) (deleted opened : Bool) :
    ∃ s1, UpdateConfigNANDSavegame true s = some (RESULT_SUCCESS, s1) ∧
      s1.cfg_config_file_buffer = s.cfg_config_file_buffer ∧
      (∃ rest, s1.config_file =
        some (bytesAt s.cfg_config_file_buffer 0 CONFIG_SAVEFILE_SIZE ++ rest)) ∧
      Interface true true deleted opened (freshState s1.config_file)
        = some (freshState s1.config_file) ∧
      (freshState s1.config_file).cfg_config_file_buffer = zeroFilled ∧
      ∀ block_id size mask output,
        GetConfigInfoBlock (freshState s1.config_file).cfg_config_file_buffer block_id size mask
          output = some (RESULT_MINUS_ONE, output) :=
  ⟨_, rfl, rfl, ⟨_, rfl⟩, rfl, rfl, fun _ _ _ _ => lookup_zeroFilled _ _ _ _⟩

/-! ## C17: `GetConfigInfoBlk2` -/

/-- The two ways `GetConfigInfoBlock` returns: `ResultCode(-1)` with the output
untouched when no entry slot matches, success with the payload of the first
matching slot in the first `size` bytes of the output otherwise. -/
theorem lookup_result (buf : Memory) (block_id size flag res : Nat) (output out1 : Memory)
    (h : GetConfigInfoBlock buf block_id size flag output = some (res, out1)) :
    (res = RESULT_MINUS_ONE ∧ out1 = output ∧
      ∀ j, j < BLOCK_ENTRIES → entryMatches buf block_id size flag j = false) ∨
    (res = RESULT_SUCCESS ∧
      ∃ i, i < BLOCK_ENTRIES ∧ entryMatches buf block_id size flag i = true ∧
        (∀ j, j < i → entryMatches buf block_id size flag j = false) ∧
        bytesAt out1 0 size = payloadOf buf i ∧ ∀ x, size ≤ x → out1 x = output x) := by
  have hb := find_if_bounds (entryMatches buf block_id size flag) BLOCK_ENTRIES 0
  rcases Nat.eq_or_lt_of_le hb.2 with he | he
  · rw [Nat.zero_add] at he
    left
    unfold GetConfigInfoBlock at h
    simp only [he] at h
    rw [if_pos trivial] at h
    simp only [Option.some.injEq, Prod.mk.injEq] at h
    refine ⟨h.1.symm, h.2.symm, fun j hj => ?_⟩
    exact find_if_before (entryMatches buf block_id size flag) BLOCK_ENTRIES 0 j
      (Nat.zero_le _) (by rw [he]; exact hj)
  · right
    rw [Nat.zero_add] at he
    have hm := find_if_at (entryMatches buf block_id size flag) BLOCK_ENTRIES 0 (by omega)
    have hsz := ((entryMatches_iff _ _ _ _ _).mp hm).2.1
    have hne : ¬ find_if (entryMatches buf block_id size flag) BLOCK_ENTRIES 0
        = BLOCK_ENTRIES := by omega
    unfold GetConfigInfoBlock at h
    simp only at h
    rw [if_neg hne] at h
    have hres : res = RESULT_SUCCESS ∧ bytesAt out1 0 size = payloadOf buf
        (find_if (entryMatches buf block_id size flag) BLOCK_ENTRIES 0) ∧
        ∀ x, size ≤ x → out1 x = output x := by
      unfold payloadOf
      split at h
      · rename_i hs
        rw [if_pos hs]
        simp only [Option.some.injEq, Prod.mk.injEq] at h
        rw [← h.2, ← h.1, hsz]
        exact ⟨rfl, bytesAt_memcpy _ _ _ _, fun x hx => memcpy_other _ _ _ _ _ _ (by omega)⟩
      · rename_i hs
        rw [if_neg hs]
        split at h
        · exact absurd h (by simp)
        · simp only [Option.some.injEq, Prod.mk.injEq] at h
          rw [← h.2, ← h.1, hsz]
          exact ⟨rfl, bytesAt_memcpy _ _ _ _, fun x hx => memcpy_other _ _ _ _ _ _ (by omega)⟩
    exact ⟨hres.1, _, he, hm, fun j hj => find_if_before _ _ _ j (Nat.zero_le _) hj,
      hres.2.1, hres.2.2⟩

/-- In a store satisfying the invariant every lookup is defined. -/
theorem lookup_defined (buf : Memory) (hinv : Inv buf) (block_id size flag : Nat)
    (output : Memory) : ∃ r, GetConfigInfoBlock buf block_id size flag output = some r := by
  rcases inv_find_if buf hinv block_id size flag with he | ⟨hlt, hm⟩
  · refine ⟨(RESULT_MINUS_ONE, output), ?_⟩
    unfold GetConfigInfoBlock
    simp only [he]
    exact if_pos trivial
  · obtain ⟨out1, h1⟩ := lookup_succeeds buf hinv block_id size flag _ output hlt hm
    exact ⟨_, h1⟩

/-- C17: if the translator returns the null pointer for the address in slot 4,
`GetConfigInfoBlk2` writes 0xFFFFFFFF to slot 1 and leaves the memory as it is,
whatever the store holds. Otherwise slot 1 receives the result code of
`GetConfigInfoBlock` for the block id of slot 2, the size of slot 1 and the flag
0x2; on success the `size` bytes at the pointer are the payload of the first
matching entry and no other byte of the memory changes, on failure no byte
changes. In a reachable store the function always returns. -/
theorem c17_get_config_info_blk2 (GetPointer : Nat → Option Nat) (buf : Memory)
    (cmd : CommandBuffer) (memory : Memory) :
    (GetPointer (cmd 4) = none →
      GetConfigInfoBlk2 GetPointer buf cmd memory = some (setWord cmd 1 0xFFFFFFFF, memory)) ∧
    (∀ p res out1, GetPointer (cmd 4) = some p →
      GetConfigInfoBlock buf (cmd 2) (cmd 1) 0x2 (fun i => memory (p + i)) = some (res, out1) →
      ∃ memory1, GetConfigInfoBlk2 GetPointer buf cmd memory = some (setWord cmd 1 res, memory1) ∧
        (∀ a, a < p → memory1 a = memory a) ∧
        (res = RESULT_SUCCESS →
          (∃ i, i < BLOCK_ENTRIES ∧ entryMatches buf (cmd 2) (cmd 1) 0x2 i = true ∧
            (∀ j, j < i → entryMatches buf (cmd 2) (cmd 1) 0x2 j = false) ∧
            bytesAt memory1 p (cmd 1) = payloadOf buf i) ∧
          ∀ a, p + cmd 1 ≤ a → memory1 a = memory a) ∧
        (res ≠ RESULT_SUCCESS → res = RESULT_MINUS_ONE ∧ memory1 = memory)) ∧
    (Reachable buf → ∃ r, GetConfigInfoBlk2 GetPointer buf cmd memory = some r) := by
  refine ⟨?_, ?_, ?_⟩
  · intro hp
    unfold GetConfigInfoBlk2
    simp only [hp]
  · intro p res out1 hp hl
    refine ⟨fun a => if p ≤ a then out1 (a - p) else memory a, ?_, ?_, ?_, ?_⟩
    · unfold GetConfigInfoBlk2
      simp only [hp, hl]
    · intro a ha
      show (if p ≤ a then out1 (a - p) else memory a) = memory a
      rw [if_neg (by omega)]
    · intro hs
      rcases lookup_result buf _ _ _ _ _ _ hl with ⟨h1, -, -⟩ | ⟨-, i, hi, hm, hb, hpay, hrest⟩
      · rw [hs] at h1
        exact absurd h1 (by decide)
      · refine ⟨⟨i, hi, hm, hb, ?_⟩, ?_⟩
        · rw [← hpay]
          apply bytesAt_congr
          intro k _
          show (if p ≤ p + k then out1 (p + k - p) else memory (p + k)) = out1 (0 + k)
          rw [if_pos (by omega), Nat.zero_add]
          congr 1
          omega
        · intro a ha
          show (if p ≤ a then out1 (a - p) else memory a) = memory a
          rw [if_pos (by omega), hrest _ (by omega)]
          congr 1
          omega
    · intro hs
      rcases lookup_result buf _ _ _ _ _ _ hl with ⟨h1, h2, -⟩ | ⟨h1, -⟩
      · refine ⟨h1, ?_⟩
        funext a
        show (if p ≤ a then out1 (a - p) else memory a) = memory a
        by_cases ha : p ≤ a
        · rw [if_pos ha, h2]
          show memory (p + (a - p)) = memory a
          rw [Nat.add_sub_cancel' ha]
        · rw [if_neg ha]
      · exact absurd h1 hs
  · intro hr
    cases hp : GetPointer (cmd 4) with
    | none =>
      unfold GetConfigInfoBlk2
      simp only [hp]
      exact ⟨_, rfl⟩
    | some p =>
      obtain ⟨r, hl⟩ := lookup_defined buf (reachable_inv buf hr) (cmd 2) (cmd 1) 0x2
        (fun i => memory (p + i))
      unfold GetConfigInfoBlk2
      simp only [hp, hl]
      exact ⟨_, rfl⟩

/-- C17, witness: a translator that returns the null pointer. -/
theorem c17_get_config_info_blk2_witness :
    (fun _ : Nat => (none : Option Nat)) ((fun _ => 0 : CommandBuffer) 4) = none ∧
    GetConfigInfoBlk2 (fun _ => none) formattedBuffer (fun _ => 0) zeroFilled
      = some (setWord (fun _ => 0) 1 0xFFFFFFFF, zeroFilled) :=
  ⟨rfl, (c17_get_config_info_blk2 (fun _ => none) formattedBuffer (fun _ => 0) zeroFilled).1 rfl⟩

/-! ## C18: `GetSystemModel` -/

/-- The four default entries and their payloads stay what `FormatConfig` made
them, in every reachable store. -/
theorem reachable_defaults (buf : Memory) (hr : Reachable buf) :
    4 ≤ total_entries buf ∧ ∀ i, i < 4 →
      readEntry buf i = readEntry formattedBuffer i ∧
      payloadOf buf i = payloadOf formattedBuffer i := by
  induction hr with
  | format s s1 hf =>
    rw [formatConfig_eq] at hf
    cases hf
    exact ⟨by decide, fun i _ => ⟨rfl, rfl⟩⟩
  | create buf buf1 block_id size flags res data hr hte hc ih =>
    have hinv := reachable_inv buf hr
    obtain ⟨-, hp, -⟩ := create_inv_post _ _ _ _ _ _ _ hinv hte hc
    refine ⟨by rw [hp.te]; omega, fun i hi => ?_⟩
    rw [createPost_entry_lt _ _ _ _ _ _ hte hp i (by omega),
      payloadOf_preserved _ _ _ _ _ _ hinv hte hp i (by omega)]
    exact ih.2 i hi

/-- C19: in a reachable store with fewer than 1479 entries, creating a block
whose id no existing entry has (flags at most 0xFFFF, data of length `size`, an
out-of-line payload fitting in the buffer) succeeds; the lookup of that id and
size then succeeds and returns exactly the data for every mask that shares a
set bit with the flags, and returns `ResultCode(-1)`, writing nothing, for every
mask that shares none. -/
theorem c19_roundtrip_flag_test (buf : Memory) (block_id size flags mask : Nat)
    (data : List u8) (output : Memory)
    (hr : Reachable buf) (hte : total_entries buf < BLOCK_ENTRIES)
    (hid : block_id < 4294967296) (hflags : flags ≤ 0xFFFF) (hlen : data.length = size)
    (hfit : 4 < size →
      0x455C + nextOffset buf (total_entries buf) + size ≤ CONFIG_SAVEFILE_SIZE)
    (hfresh : ∀ i, i < total_entries buf → (readEntry buf i).block_id ≠ block_id) :
    ∃ buf1,
      CreateConfigInfoBlk buf block_id size flags (ofBytes data) = some (RESULT_SUCCESS, buf1) ∧
      (flags &&& mask ≠ 0 →
        ∃ out1, GetConfigInfoBlock buf1 block_id size mask output = some (RESULT_SUCCESS, out1) ∧
          bytesAt out1 0 size = data) ∧
      (flags &&& mask = 0 →
        GetConfigInfoBlock buf1 block_id size mask output = some (RESULT_MINUS_ONE, output)) := by
  have hinv := reachable_inv buf hr
  obtain ⟨buf1, hc, hp⟩ := create_post buf block_id size flags (ofBytes data) hte hinv.deo hfit
  have hinv1 := createPost_inv _ _ _ _ _ _ hinv hte hp hfit
  have hfl : flags % 65536 = flags := Nat.mod_eq_of_lt (by omega)
  refine ⟨buf1, hc, ?_, ?_⟩
  · intro hm
    obtain ⟨out1, h1, h2, -⟩ := lookup_created buf buf1 block_id size flags mask (ofBytes data)
      output hinv hte hp hfit hid hfresh (by rw [hfl]; exact hm)
    refine ⟨out1, h1, ?_⟩
    rw [h2, ← hlen]
    exact bytesAt_ofBytes data
  · intro hm
    apply lookup_not_found
    intro j hj
    rcases Nat.lt_trichotomy j (total_entries buf) with h | h | h
    · apply entryMatches_false_of_id
      rw [createPost_entry_lt buf buf1 block_id size flags (ofBytes data) hte hp j h]
      exact hfresh j h
    · rw [h]
      unfold entryMatches
      rw [hp.entry_flags, hfl, hm]
      simp
    · exact inv_unused_no_match buf1 hinv1 _ _ _ j (by rw [hp.te]; omega) hj

/-- C19, witness: a two-byte block with the flags 0xE created in the formatted
store and looked up with the mask 0x3. -/
theorem c19_roundtrip_flag_test_witness :
    ∃ buf1,
      CreateConfigInfoBlk formattedBuffer 0x00010001 2 0xE (ofBytes [1, 2])
        = some (RESULT_SUCCESS, buf1) ∧
      (0xE &&& 0x3 ≠ 0 →
        ∃ out1, GetConfigInfoBlock buf1 0x00010001 2 0x3 zeroFilled
            = some (RESULT_SUCCESS, out1) ∧ bytesAt out1 0 2 = [1, 2]) ∧
      (0xE &&& 0x3 = 0 →
        GetConfigInfoBlock buf1 0x00010001 2 0x3 zeroFilled
          = some (RESULT_MINUS_ONE, zeroFilled)) :=
  c19_roundtrip_flag_test formattedBuffer 0x00010001 2 0xE 0x3 [1, 2] zeroFilled
    reachable_formatted (by decide) (by decide) (by decide) rfl
    (fun h => absurd h (by decide)) (by decide)

/-! ## C20: the unused entry slots -/

/-- C20: in every store reachable from `FormatConfig` by `CreateConfigInfoBlk`
calls, every byte of the entry slots from index `total_entries` on is zero, no
such slot matches any request, and `GetConfigInfoBlock`, which scans all 1479
slots, returns the same result code and the same output as the scan of the
first `total_entries` entries. -/
theorem c20_unused_slots_never_match (buf : Memory) (block_id size mask : Nat)
    (output : Memory) (hr : Reachable buf) :
    (∀ a, entryAddr (total_entries buf) ≤ a → a < entryAddr BLOCK_ENTRIES → buf a = 0) ∧
    (∀ j, total_entries buf ≤ j → j < BLOCK_ENTRIES →
      readEntry buf j = ⟨0, 0, 0, 0⟩ ∧ entryMatches buf block_id size mask j = false) ∧
    GetConfigInfoBlock buf block_id size mask output =
      lookupCreatedEntries buf block_id size mask output := by
  have hinv := reachable_inv buf hr
  refine ⟨hinv.unused, fun j h1 h2 =>
    ⟨inv_unused_entry buf hinv j h1 h2, inv_unused_no_match buf hinv _ _ _ j h1 h2⟩, ?_⟩
  have hb := find_if_bounds (entryMatches buf block_id size mask) (total_entries buf) 0
  have hle := hinv.te_le
  rcases Nat.eq_or_lt_of_le hb.2 with he | he
  · rw [Nat.zero_add] at he
    have hall : ∀ j, j < BLOCK_ENTRIES → entryMatches buf block_id size mask j = false := by
      intro j hj
      by_cases hjt : j < total_entries buf
      · exact find_if_before (entryMatches buf block_id size mask) (total_entries buf) 0 j
          (Nat.zero_le _) (by rw [he]; exact hjt)
      · exact inv_unused_no_match buf hinv _ _ _ j (by omega) hj
    rw [lookup_not_found buf block_id size mask output hall]
    unfold lookupCreatedEntries
    simp only [he]
    exact (if_pos trivial).symm
  · rw [Nat.zero_add] at he
    have hm := find_if_at (entryMatches buf block_id size mask) (total_entries buf) 0
      (by omega)
    have hfull : find_if (entryMatches buf block_id size mask) BLOCK_ENTRIES 0 =
        find_if (entryMatches buf block_id size mask) (total_entries buf) 0 :=
      find_if_eq _ _ _ _ (Nat.zero_le _) (by omega) hm
        (fun j _ hj => find_if_before _ _ _ j (Nat.zero_le _) hj)
    have h1 : ¬ find_if (entryMatches buf block_id size mask) (total_entries buf) 0
        = BLOCK_ENTRIES := by omega
    have h2 : ¬ find_if (entryMatches buf block_id size mask) (total_entries buf) 0
        = total_entries buf := by omega
    unfold GetConfigInfoBlock lookupCreatedEntries
    simp only [hfull, if_neg h1, if_neg h2]

/-- C20, witness: the formatted store, in which the lookup of an id that no entry
has scans the 1475 unused slots without a match. -/
theorem c20_unused_slots_never_match_witness :
    Reachable formattedBuffer ∧
    GetConfigInfoBlock formattedBuffer 0x00010001 2 0xE zeroFilled =
      lookupCreatedEntries formattedBuffer 0x00010001 2 0xE zeroFilled :=
  ⟨reachable_formatted,
    (c20_unused_slots_never_match formattedBuffer 0x00010001 2 0xE zeroFilled
      reachable_formatted).2.2⟩

/-! ## C21: `FormatConfig` when the file cannot be deleted -/

/-- C21: in every state, when the deletion of the savegame file fails,
`DeleteConfigNANDSaveFile` returns `ResultCode(-1)`, which is not the success
code, and `FormatConfig` returns that code and leaves the state as it was: the
buffer is not zeroed, no default entry is inserted (`total_entries` and every
byte are what they were) and the file is not written, whether or not it could
be opened. The service bring-up that does not find the file and calls
`FormatConfig` then leaves the state as it was too. -/
theorem c21_format_delete_failure (s : State) (opened : Bool) :
    DeleteConfigNANDSaveFile false s = (RESULT_MINUS_ONE, s) ∧
    RESULT_MINUS_ONE ≠ RESULT_SUCCESS ∧
    FormatConfig false opened s = some (RESULT_MINUS_ONE, s) ∧
    (FormatConfig false opened s).map (fun r => r.2.cfg_config_file_buffer)
      = some s.cfg_config_file_buffer ∧
    (FormatConfig false opened s).map (fun r => total_entries r.2.cfg_config_file_buffer)
      = some (total_entries s.cfg_config_file_buffer) ∧
    (FormatConfig false opened s).map (fun r => r.2.config_file) = some s.config_file ∧
    Interface true false false opened s = some s := by
  have hd : DeleteConfigNANDSaveFile false s = (RESULT_MINUS_ONE, s) := rfl
  have hne : RESULT_MINUS_ONE ≠ RESULT_SUCCESS := by decide
  have hf : FormatConfig false opened s = some (RESULT_MINUS_ONE, s) := by
    unfold FormatConfig
    simp only [hd]
    exact if_pos hne
  refine ⟨hd, hne, hf, ?_, ?_, ?_, ?_⟩
  · rw [hf]; rfl
  · rw [hf]; rfl
  · rw [hf]; rfl
  · unfold Interface
    simp only [hf]
    rfl

/-! ## C8: an older entry with the same id -/

/-- In every reachable store the lookup of the console model finds the default
entry 2 and returns its payload. -/
theorem lookup_console_model (buf : Memory) (hr : Reachable buf) (output : Memory) :
    ∃ out1, GetConfigInfoBlock buf 0x000F0004 4 0x8 output = some (RESULT_SUCCESS, out1) ∧
      bytesAt out1 0 4 = [1, 0, 0, 0] := by
  have hinv := reachable_inv buf hr
  obtain ⟨hte, hd⟩ := reachable_defaults buf hr
  have hfind : find_if (entryMatches buf 0x000F0004 4 0x8) BLOCK_ENTRIES 0 = 2 := by
    apply find_if_eq _ _ _ _ (by decide) (by decide)
    · unfold entryMatches
      rw [(hd 2 (by decide)).1]
      decide
    · intro j _ hj
      unfold entryMatches
      rw [(hd j (by omega)).1]
      have hj2 : j = 0 ∨ j = 1 := by omega
      rcases hj2 with rfl | rfl <;> decide
  obtain ⟨out1, h1, h2, -⟩ := lookup_found buf 0x000F0004 4 0x8 2 output (by decide) hfind
    (inv_entry_fit buf hinv 2 (by omega))
  have hs : (readEntry buf 2).size = 4 := by
    rw [(hd 2 (by decide)).1]
    decide
  rw [hs, (hd 2 (by decide)).2] at h2
  exact ⟨out1, h1, h2.trans (by decide)⟩

theorem create_remodel1 :
    CreateConfigInfoBlk formattedBuffer 0x000F0004 4 0x8 (ofBytes [9, 9, 9, 9]) =
      some (RESULT_SUCCESS, remodel1) :=
  create_eq_created formattedBuffer _ _ _ _ (by decide) (by decide)
    (fun h => absurd h (by decide))

theorem create_remodel2 :
    CreateConfigInfoBlk remodel1 0x000F0004 4 0x8 (ofBytes [1, 0, 0, 0]) =
      some (RESULT_SUCCESS, remodel2) :=
  create_eq_created remodel1 _ _ _ _ (by decide) (by decide)
    (fun h => absurd h (by decide))

theorem reachable_remodel2 : Reachable remodel2 :=
  Reachable.create _ _ _ _ _ _ _
    (Reachable.create _ _ _ _ _ _ _ reachable_formatted (by decide) create_remodel1)
    (by decide) create_remodel2

/-- C8, counterexample: in the formatted store, whose entry 2 already has the id
0x000F0004, two further blocks with that id, the size 4 and the flags 0x8 are
created, the first with the data 09 09 09 09, the second with 01 00 00 00. The
lookup of that id and size succeeds and returns the payload 01 00 00 00 of the
older entry 2: the data of the second call, not that of the first. -/
theorem c8_older_entry_shadows_both_creates :
    (readEntry formattedBuffer 2).block_id = 0x000F0004 ∧
    CreateConfigInfoBlk formattedBuffer 0x000F0004 4 0x8 (ofBytes [9, 9, 9, 9]) =
      some (RESULT_SUCCESS, remodel1) ∧
    CreateConfigInfoBlk remodel1 0x000F0004 4 0x8 (ofBytes [1, 0, 0, 0]) =
      some (RESULT_SUCCESS, remodel2) ∧
    ∃ out1, GetConfigInfoBlock remodel2 0x000F0004 4 0x8 zeroFilled
        = some (RESULT_SUCCESS, out1) ∧
      bytesAt out1 0 4 = [1, 0, 0, 0] ∧ bytesAt out1 0 4 ≠ [9, 9, 9, 9] := by
  obtain ⟨out1, h1, h2⟩ := lookup_console_model remodel2 reachable_remodel2 zeroFilled
  exact ⟨by decide, create_remodel1, create_remodel2, out1, h1, h2, by rw [h2]; decide⟩

end CFG_U
